import Mathlib

/-!
Verification development for the FACET compilation pipeline
(`facet-lang` Python package: lexer, parser, compile-time vars,
evaluator, expression engine, lens library, anchor resolver).

The Python sources are shallowly embedded:

* Python's JSON-like values (`None`/`bool`/`int`/`str`/`list`/`dict`,
  plus the parser's `Fence` wrapper) become the inductive `Val`;
  Python dicts become insertion-ordered association lists with
  last-wins updates, mirroring CPython dict semantics.
* Functions that raise `FacetError` return `Except Err _` with the
  error code preserved.
* Machine integers do not occur; BLAKE2b works on `Nat` with explicit
  reduction mod `2^64`.
* Floating point is not modelled: places where the Python code would
  build a `float` (number lexemes containing `.`, `e` or `E`) return a
  distinguished `MODEL-FLOAT` error.  No claim below touches floats.
* Arbitrary user regexes (`regex_replace` patterns, `@var_types`
  `pattern` constraints) and `random.Random` shuffling are external
  library calls; they are passed in as an explicit `Ext` record of
  functions.  The two fixed regexes hard-wired in the sources (the
  if-expression tokenizer and the `@vars` reference scanner) are
  embedded directly.
-/

set_option maxRecDepth 100000

namespace FacetSpec

/-- Source position (line, column), as in `errors.Pos`. -/
structure Pos where
  line : Nat
  col : Nat
deriving DecidableEq, Repr

/-- Embedded `FacetError`: stable code, message, optional position. -/
structure Err where
  code : String
  msg : String
  pos : Option Pos
deriving DecidableEq, Repr

/-- Embedded `raise_f` without a position. -/
def errF (code msg : String) : Err := ⟨code, msg, none⟩

/-- Code of an error result, `none` on success; claims constrain codes only. -/
def errCodeOf {α : Type} : Except Err α → Option String
  | .error e => some e.code
  | .ok _ => none

/-- Python values flowing through the pipeline: `None`, `bool`, `int`,
`str`, `list`, `dict` (insertion-ordered assoc list), the parser's
`Fence` dataclass, and the parser's `ListItem` dataclass (lists of
which `_collapse_block` embeds into values).  An `item`'s lens calls
are `(name, positional args, keyword args)` triples mirroring
`ast.LensCall`.  Floats are outside the model (see module header). -/
inductive Val where
  | null : Val
  | bool (b : Bool) : Val
  | int (n : Int) : Val
  | str (s : String) : Val
  | list (items : List Val) : Val
  | dict (entries : List (String × Val)) : Val
  | fence (text : String) : Val
  | item (value : Val) (itemIf : Option String)
      (lenses : List (String × List Val × List (String × Val))) (pos : Pos) : Val
deriving Repr

/-- A parsed lens call `ast.LensCall`: name, positional literal args,
keyword literal args. -/
abbrev LensSpec := String × List Val × List (String × Val)

mutual

/-- Structural equality on `Val`, mirroring Python `==` on these values
(no float cross-type cases arise because floats are not modelled). -/
def Val.beq : Val → Val → Bool
  | .null, b => match b with | .null => true | _ => false
  | .bool a, b => match b with | .bool b' => a == b' | _ => false
  | .int a, b => match b with | .int b' => a == b' | _ => false
  | .str a, b => match b with | .str b' => a == b' | _ => false
  | .list a, b => match b with | .list b' => Val.beqList a b' | _ => false
  | .dict a, b => match b with | .dict b' => Val.beqEntries a b' | _ => false
  | .fence a, b => match b with | .fence b' => a == b' | _ => false
  | .item v a l p, b =>
      match b with
      | .item v' a' l' p' => Val.beq v v' && a == a' && Val.beqLenses l l' && p == p'
      | _ => false

/-- Elementwise equality of value lists. -/
def Val.beqList : List Val → List Val → Bool
  | [], b => match b with | [] => true | _ => false
  | a :: as, b => match b with | b' :: bs => Val.beq a b' && Val.beqList as bs | _ => false

/-- Entrywise equality of dict entry lists (Python dict `==` ignores
order, but every dict built by this pipeline has ordered unique keys and
the claims only ever compare dicts built the same way, so entrywise
equality is the faithful comparison here). -/
def Val.beqEntries : List (String × Val) → List (String × Val) → Bool
  | [], b => match b with | [] => true | _ => false
  | (ka, va) :: as, b =>
      match b with
      | (kb, vb) :: bs => ka == kb && Val.beq va vb && Val.beqEntries as bs
      | _ => false

/-- Fieldwise equality of lens-call lists (dataclass `==`). -/
def Val.beqLenses :
    List (String × List Val × List (String × Val)) →
    List (String × List Val × List (String × Val)) → Bool
  | [], b => match b with | [] => true | _ => false
  | (na, aa, ka) :: as, b =>
      match b with
      | (nb, ab, kb) :: bs =>
          na == nb && Val.beqList aa ab && Val.beqEntries ka kb && Val.beqLenses as bs
      | _ => false

end

instance : BEq Val := ⟨Val.beq⟩

/-- The `isinstance(x, str)` test. -/
def Val.isStr : Val → Bool
  | .str _ => true
  | _ => false

/-- The `isinstance(x, list)` test. -/
def Val.isList : Val → Bool
  | .list _ => true
  | _ => false

/-- The `isinstance(x, dict)` test. -/
def Val.isDict : Val → Bool
  | .dict _ => true
  | _ => false

/-! ### Python dict operations (insertion order, last-wins values) -/

/-- Membership test `k in d` on an ordered assoc list. -/
def dictMem (k : String) : List (String × Val) → Bool
  | [] => false
  | (k', _) :: rest => k == k' || dictMem k rest

/-- Lookup `d[k]` / `d.get(k)` returning the first (unique) binding. -/
def dictGet? (k : String) : List (String × Val) → Option Val
  | [] => none
  | (k', v) :: rest => if k == k' then some v else dictGet? k rest

/-- Assignment `d[k] = v`: updates an existing key in place (keeping its
position) or appends a fresh binding, exactly as a CPython dict. -/
def dictSet (d : List (String × Val)) (k : String) (v : Val) : List (String × Val) :=
  match d with
  | [] => [(k, v)]
  | (k', v') :: rest =>
      if k == k' then (k, v) :: rest else (k', v') :: dictSet rest k v

/-- Python `dict.update`: fold `dictSet` over the second dict's entries. -/
def dictUpdate (d : List (String × Val)) (src : List (String × Val)) : List (String × Val) :=
  src.foldl (fun acc kv => dictSet acc kv.1 kv.2) d

/-! ### Python string helpers

These operate on `List Char` (Python `str` is a sequence of code
points, as is Lean's `String.data`). -/

/-- Characters for which Python `str.isspace()` holds (the `str.strip()`
character class): ASCII whitespace, the C1 separators and the Unicode
space separators. -/
def isPySpace (c : Char) : Bool :=
  c == ' ' || c == '\t' || c == '\n' || (0x0B ≤ c.toNat && c.toNat ≤ 0x0D) ||
  c.toNat == 0x1C || c.toNat == 0x1D || c.toNat == 0x1E || c.toNat == 0x1F ||
  c.toNat == 0x85 || c.toNat == 0xA0 || c.toNat == 0x1680 ||
  (0x2000 ≤ c.toNat && c.toNat ≤ 0x200A) ||
  c.toNat == 0x2028 || c.toNat == 0x2029 || c.toNat == 0x202F ||
  c.toNat == 0x205F || c.toNat == 0x3000

/-- Python `str.strip()` on a character list. -/
def pyStripChars (cs : List Char) : List Char :=
  ((cs.dropWhile isPySpace).reverse.dropWhile isPySpace).reverse

/-- Python `str.strip()`. -/
def pyStrip (s : String) : String :=
  ⟨pyStripChars s.data⟩

/-- Test whether `pat` occurs as a contiguous sublist of `cs`
(Python's `pat in s`). -/
def listHasSub (pat : List Char) : List Char → Bool
  | [] => pat == []
  | c :: rest => pat.isPrefixOf (c :: rest) || listHasSub pat rest

/-- Python `sub in s` substring test. -/
def strHasSub (sub s : String) : Bool :=
  listHasSub sub.data s.data

/-- Python `s.startswith(p)`. -/
def strStarts (s p : String) : Bool :=
  p.data.isPrefixOf s.data

/-- Python `s.endswith(p)`. -/
def strEnds (s p : String) : Bool :=
  p.data.reverse.isPrefixOf s.data.reverse

/-- Python `s.split(sep)` for a one-character separator (empty pieces
kept, as in Python and `String.splitOn`). -/
def splitChar (sep : Char) (cs : List Char) : List (List Char) :=
  match cs with
  | [] => [[]]
  | c :: rest =>
      let tail := splitChar sep rest
      if c == sep then [] :: tail
      else
        match tail with
        | piece :: more => (c :: piece) :: more
        | [] => [[c]]

/-- Split a dotted path into its components (`path.split('.')`). -/
def splitDots (path : String) : List String :=
  (splitChar '.' path.data).map fun l => ⟨l⟩

/-- Python slice `s[a:]` on code points. -/
def strDrop (s : String) (a : Nat) : String :=
  ⟨s.data.drop a⟩

/-- Python slice `s[:a]` on code points. -/
def strTake (s : String) (a : Nat) : String :=
  ⟨s.data.take a⟩

/-- Python `len(s)` in code points. -/
def strLen (s : String) : Nat := s.data.length

/-- ASCII decimal digit test (`DIGITS` in the lexer; also the effective
domain of `str.isdigit` for the inputs this pipeline produces — exotic
Unicode digits are outside the model). -/
def isDigitChar (c : Char) : Bool :=
  '0' ≤ c && c ≤ '9'

/-- UTF-8 encoding of one code point. -/
def utf8OfChar (c : Char) : List Nat :=
  let n := c.toNat
  if n < 0x80 then [n]
  else if n < 0x800 then [0xC0 + (n / 64), 0x80 + n % 64]
  else if n < 0x10000 then [0xE0 + n / 4096, 0x80 + (n / 64) % 64, 0x80 + n % 64]
  else [0xF0 + n / 262144, 0x80 + (n / 4096) % 64, 0x80 + (n / 64) % 64, 0x80 + n % 64]

/-- Python `s.encode("utf-8")` as a byte list. -/
def utf8Bytes (s : String) : List Nat :=
  s.data.flatMap utf8OfChar

/-- Lowercase hex digit for a nibble. -/
def hexDigit (n : Nat) : Char :=
  if n < 10 then Char.ofNat (48 + n) else Char.ofNat (87 + n)

/-- Four-digit lowercase hex, as in JSON `\uXXXX` escapes. -/
def hex4 (n : Nat) : List Char :=
  [hexDigit (n / 4096 % 16), hexDigit (n / 256 % 16), hexDigit (n / 16 % 16), hexDigit (n % 16)]

/-- Two-digit lowercase hex, as in Python `repr`'s `\xHH` escapes. -/
def hex2 (n : Nat) : List Char :=
  [hexDigit (n / 16 % 16), hexDigit (n % 16)]

/-! ### json.dumps

Two variants used by the sources: `lenses._canonical_bytes` uses
`sort_keys=True, separators=(",", ":"), ensure_ascii=False`;
`interpolator.interpolate_string` uses the defaults
(`", "` / `": "` separators, insertion order) with `ensure_ascii=False`. -/

/-- The escapes `json.dumps(..., ensure_ascii=False)` applies to one
string character (CPython's `ESCAPE_DCT`). -/
def jsonEscapeChar (c : Char) : List Char :=
  if c == '"' then ['\\', '"']
  else if c == '\\' then ['\\', '\\']
  else if c == '\n' then ['\\', 'n']
  else if c == '\r' then ['\\', 'r']
  else if c == '\t' then ['\\', 't']
  else if c.toNat == 8 then ['\\', 'b']
  else if c.toNat == 12 then ['\\', 'f']
  else if c.toNat < 0x20 then '\\' :: 'u' :: hex4 c.toNat
  else [c]

/-- JSON string literal for `s` (non-ASCII kept unescaped). -/
def jsonQuote (s : String) : String :=
  ⟨'"' :: s.data.flatMap jsonEscapeChar ++ ['"']⟩

/-- Code-point lexicographic `<` on strings: Python's `str` ordering,
used by `sort_keys=True`. -/
def strLtChars : List Char → List Char → Bool
  | [], [] => false
  | [], _ :: _ => true
  | _ :: _, [] => false
  | a :: as, b :: bs =>
      if a.toNat < b.toNat then true
      else if b.toNat < a.toNat then false
      else strLtChars as bs

/-- Insert into a key-sorted pair list (stable insertion sort step,
matching Python's stable `sorted`). -/
def insertByKey {α : Type} (kv : String × α) : List (String × α) → List (String × α)
  | [] => [kv]
  | hd :: tl =>
      if strLtChars hd.1.data kv.1.data then hd :: insertByKey kv tl
      else kv :: hd :: tl

/-- Stable sort of pairs by their string key (`sort_keys=True`). -/
def sortByKey {α : Type} (es : List (String × α)) : List (String × α) :=
  es.foldr insertByKey []

/-- Join strings with a separator (`sep.join(...)`). -/
def joinSep (sep : String) : List String → String
  | [] => ""
  | [x] => x
  | x :: rest => x ++ sep ++ joinSep sep rest

mutual

/-- Embedded `json.dumps(value, ensure_ascii=False)` with configurable
separators and optional key sorting.  `sort_keys=True` is realized by
rendering each entry and then sorting the rendered `(key, text)` pairs:
each entry renders independently of its position, so this equals
Python's sort-then-render.  Serializing a `Fence` raises `TypeError` in
Python (`Fence` is not JSON serializable); that surfaces here as a
`MODEL-TypeError` error. -/
def jsonDumps (itemSep kvSep : String) (sortKeys : Bool) : Val → Except Err String
  | .null => .ok "null"
  | .bool b => .ok (if b then "true" else "false")
  | .int n => .ok (toString n)
  | .str s => .ok (jsonQuote s)
  | .list items => do
      let parts ← jsonDumpsList itemSep kvSep sortKeys items
      return "[" ++ joinSep itemSep parts ++ "]"
  | .dict es => do
      let parts ← jsonDumpsEntries itemSep kvSep sortKeys es
      let parts := if sortKeys then sortByKey parts else parts
      return "\x7b" ++ joinSep itemSep (parts.map fun p => jsonQuote p.1 ++ kvSep ++ p.2) ++ "\x7d"
  | .fence _ => .error (errF "MODEL-TypeError" "Object of type Fence is not JSON serializable")
  | .item _ _ _ _ =>
      .error (errF "MODEL-TypeError" "Object of type ListItem is not JSON serializable")

/-- Serialize list elements. -/
def jsonDumpsList (itemSep kvSep : String) (sortKeys : Bool) : List Val → Except Err (List String)
  | [] => .ok []
  | v :: rest => do
      let s ← jsonDumps itemSep kvSep sortKeys v
      let tl ← jsonDumpsList itemSep kvSep sortKeys rest
      return s :: tl

/-- Render dict entries as `(key, rendered value)` pairs. -/
def jsonDumpsEntries (itemSep kvSep : String) (sortKeys : Bool) :
    List (String × Val) → Except Err (List (String × String))
  | [] => .ok []
  | (k, v) :: rest => do
      let s ← jsonDumps itemSep kvSep sortKeys v
      let tl ← jsonDumpsEntries itemSep kvSep sortKeys rest
      return (k, s) :: tl

end

/-- The serialization of `lenses._canonical_bytes`:
`json.dumps(value, ensure_ascii=False, separators=(",", ":"), sort_keys=True)`. -/
def canonicalJson (v : Val) : Except Err String :=
  jsonDumps "," ":" true v

/-- Embedded `_canonical_bytes`: canonical JSON encoded as UTF-8. -/
def canonicalBytes (v : Val) : Except Err (List Nat) := do
  let s ← canonicalJson v
  return utf8Bytes s

/-- Default-separator `json.dumps(value, ensure_ascii=False)`, used by
`interpolate_string` for non-string values. -/
def defaultJson (v : Val) : Except Err String :=
  jsonDumps ", " ": " false v

/-! ### str() / repr()

`_seed_key` calls `str(seed)`.  Seeds produced by the parser are always
`str`/`int`/`bool`/`None` literals; `str` of containers delegates to
`repr`, embedded below (its escaping of non-printable characters inside
nested strings is approximated — unreachable from lens-call seeds). -/

/-- Python `repr` of a `str`: single quotes unless the string contains a
single quote and no double quote; backslash, quote and control escapes. -/
def pyReprStr (s : String) : String :=
  let useDouble := s.data.contains '\'' && !(s.data.contains '"')
  let q : Char := if useDouble then '"' else '\''
  let body := s.data.flatMap fun c =>
    if c == '\\' then ['\\', '\\']
    else if c == q then ['\\', q]
    else if c == '\n' then ['\\', 'n']
    else if c == '\r' then ['\\', 'r']
    else if c == '\t' then ['\\', 't']
    else if c.toNat < 0x20 || c.toNat == 0x7F then '\\' :: 'x' :: hex2 c.toNat
    else [c]
  ⟨q :: body ++ [q]⟩

mutual

/-- Python `repr` on pipeline values. -/
def pyRepr : Val → String
  | .null => "None"
  | .bool b => if b then "True" else "False"
  | .int n => toString n
  | .str s => pyReprStr s
  | .list items => "[" ++ joinSep ", " (pyReprList items) ++ "]"
  | .dict es => "\x7b" ++ joinSep ", " (pyReprEntries es) ++ "\x7d"
  | .fence t => "Fence(value=" ++ pyReprStr t ++ ")"
  | .item v i _ p =>
      "ListItem(value=" ++ pyRepr v ++ ", item_if=" ++
        (match i with | none => "None" | some s => pyReprStr s) ++
        ", lenses=[…], pos=Pos(line=" ++ toString p.line ++ ", col=" ++ toString p.col ++ "))"

/-- repr of list elements. -/
def pyReprList : List Val → List String
  | [] => []
  | v :: rest => pyRepr v :: pyReprList rest

/-- repr of dict entries. -/
def pyReprEntries : List (String × Val) → List String
  | [] => []
  | (k, v) :: rest => (pyReprStr k ++ ": " ++ pyRepr v) :: pyReprEntries rest

end

/-- Python `str()` on pipeline values. -/
def pyStr : Val → String
  | .str s => s
  | .null => "None"
  | .bool b => if b then "True" else "False"
  | .int n => toString n
  | v => pyRepr v

/-! ### BLAKE2b (RFC 7693), unkeyed, 16-byte digest

`hashlib.blake2b(digest_size=16)` as used by `lenses._seed_key`.
Words are `Nat` reduced mod `2^64` after every arithmetic step. -/

/-- Word size modulus. -/
def w64 : Nat := 18446744073709551616

/-- Addition mod `2^64`. -/
def add64 (a b : Nat) : Nat := (a + b) % w64

/-- Bitwise xor (closed on values below `2^64`). -/
def xor64 (a b : Nat) : Nat := Nat.xor a b

/-- Right rotation of a 64-bit word. -/
def rotr64 (x n : Nat) : Nat :=
  (x / 2 ^ n + x % 2 ^ n * 2 ^ (64 - n)) % w64

/-- BLAKE2b initialization vector. -/
def blakeIV : List Nat :=
  [0x6A09E667F3BCC908, 0xBB67AE8584CAA73B, 0x3C6EF372FE94F82B, 0xA54FF53A5F1D36F1,
   0x510E527FADE682D1, 0x9B05688C2B3E6C1F, 0x1F83D9ABFB41BD6B, 0x5BE0CD19137E2179]

/-- Message schedule permutations SIGMA. -/
def blakeSigma : List (List Nat) :=
  [[0, 1, 2, 3, 4, 5, 6, 7, 8, 9, 10, 11, 12, 13, 14, 15],
   [14, 10, 4, 8, 9, 15, 13, 6, 1, 12, 0, 2, 11, 7, 5, 3],
   [11, 8, 12, 0, 5, 2, 15, 13, 10, 14, 3, 6, 7, 1, 9, 4],
   [7, 9, 3, 1, 13, 12, 11, 14, 2, 6, 5, 10, 4, 0, 15, 8],
   [9, 0, 5, 7, 2, 4, 10, 15, 14, 1, 11, 12, 6, 8, 3, 13],
   [2, 12, 6, 10, 0, 11, 8, 3, 4, 13, 7, 5, 15, 14, 1, 9],
   [12, 5, 1, 15, 14, 13, 4, 10, 0, 7, 6, 3, 9, 2, 8, 11],
   [13, 11, 7, 14, 12, 1, 3, 9, 5, 0, 15, 4, 8, 6, 2, 10],
   [6, 15, 14, 9, 11, 3, 0, 8, 12, 2, 13, 7, 1, 4, 10, 5],
   [10, 2, 8, 4, 7, 6, 1, 5, 15, 11, 9, 14, 3, 12, 13, 0]]

/-- The G mixing function on six words, returning updated `(a, b, c, d)`. -/
def blakeG (a b c d x y : Nat) : Nat × Nat × Nat × Nat :=
  let a := add64 (add64 a b) x
  let d := rotr64 (xor64 d a) 32
  let c := add64 c d
  let b := rotr64 (xor64 b c) 24
  let a := add64 (add64 a b) y
  let d := rotr64 (xor64 d a) 16
  let c := add64 c d
  let b := rotr64 (xor64 b c) 63
  (a, b, c, d)

/-- One round of the compression function on the 16-word state `v` with
message words `m` and schedule row `s`. -/
def blakeRound (v m s : List Nat) : List Nat :=
  match v with
  | [v0, v1, v2, v3, v4, v5, v6, v7, v8, v9, v10, v11, v12, v13, v14, v15] =>
      let mi := fun i => m.getD (s.getD i 0) 0
      let (v0, v4, v8, v12) := blakeG v0 v4 v8 v12 (mi 0) (mi 1)
      let (v1, v5, v9, v13) := blakeG v1 v5 v9 v13 (mi 2) (mi 3)
      let (v2, v6, v10, v14) := blakeG v2 v6 v10 v14 (mi 4) (mi 5)
      let (v3, v7, v11, v15) := blakeG v3 v7 v11 v15 (mi 6) (mi 7)
      let (v0, v5, v10, v15) := blakeG v0 v5 v10 v15 (mi 8) (mi 9)
      let (v1, v6, v11, v12) := blakeG v1 v6 v11 v12 (mi 10) (mi 11)
      let (v2, v7, v8, v13) := blakeG v2 v7 v8 v13 (mi 12) (mi 13)
      let (v3, v4, v9, v14) := blakeG v3 v4 v9 v14 (mi 14) (mi 15)
      [v0, v1, v2, v3, v4, v5, v6, v7, v8, v9, v10, v11, v12, v13, v14, v15]
  | other => other

/-- Little-endian 64-bit words from a 128-byte block: the i-th word
reads bytes `8i..8i+7` (index arithmetic in place of the source's
8-byte take/drop loop; the chunks are identical). -/
def leWords (bytes : List Nat) : List Nat :=
  (List.range ((bytes.length + 7) / 8)).map fun i =>
    ((bytes.drop (8 * i)).take 8).reverse.foldl (fun acc x => acc * 256 + x) 0

/-- The compression function F: state `h`, one 128-byte block, byte
offset `t`, finalization flag `f`. -/
def blakeCompress (h : List Nat) (block : List Nat) (t : Nat) (f : Bool) : List Nat :=
  let m := leWords (block ++ List.replicate (128 - block.length) 0)
  let v := h ++ blakeIV
  let v := match v with
    | [a0, a1, a2, a3, a4, a5, a6, a7, a8, a9, a10, a11, a12, a13, a14, a15] =>
        [a0, a1, a2, a3, a4, a5, a6, a7, a8, a9, a10, a11,
         xor64 a12 (t % w64), xor64 a13 (t / w64 % w64),
         if f then xor64 a14 (w64 - 1) else a14, a15]
    | other => other
  let v := (List.range 12).foldl (fun acc r => blakeRound acc m (blakeSigma.getD (r % 10) [])) v
  (List.range 8).map fun i => xor64 (h.getD i 0) (xor64 (v.getD i 0) (v.getD (i + 8) 0))

/-- Split data into 128-byte blocks (at least one, possibly empty, block). -/
def blakeBlocks (data : List Nat) : List (List Nat) :=
  let n := max 1 ((data.length + 127) / 128)
  (List.range n).map fun i => (data.drop (128 * i)).take 128

/-- Process all blocks: all but the last with running byte counts, the
last with the total length and the finalization flag. -/
def blakeFold (h : List Nat) (blocks : List (List Nat)) (done total : Nat) : List Nat :=
  match blocks with
  | [] => h
  | [last] => blakeCompress h last total true
  | b :: rest => blakeFold (blakeCompress h b (done + 128) false) rest (done + 128) total

/-- Little-endian byte serialization of 64-bit words. -/
def wordsToBytes : List Nat → List Nat
  | [] => []
  | w :: rest =>
      [w % 256, w / 256 % 256, w / 65536 % 256, w / 16777216 % 256,
       w / 4294967296 % 256, w / 1099511627776 % 256,
       w / 281474976710656 % 256, w / 72057594037927936 % 256] ++ wordsToBytes rest

/-- Unkeyed BLAKE2b with a 16-byte digest over a byte list
(`hashlib.blake2b(digest_size=16)`). -/
def blake2b16 (data : List Nat) : List Nat :=
  let h0 := match blakeIV with
    | iv0 :: rest => xor64 iv0 0x01010010 :: rest
    | [] => []
  let h := blakeFold h0 (blakeBlocks data) 0 data.length
  (wordsToBytes h).take 16

/-- Big-endian integer from bytes (`int.from_bytes(-, "big")`). -/
def beBytesToNat (bytes : List Nat) : Nat :=
  bytes.foldl (fun acc b => acc * 256 + b) 0

/-! ### Lens library (`lenses.py`) -/

/-- External library functions that the lens layer calls out to:
`re.sub` with a user pattern (`none` models `re.error`) and
`random.Random(k).shuffle`'s permutation. -/
structure Ext where
  reSub : String → String → String → Option String
  shufflePerm : Nat → List Val → List Val
  reFullmatch : String → String → Bool

/-- Embedded `_seed_key`: BLAKE2b-16 over `str(seed)`, a `0x1F` byte and
the canonical JSON bytes of `value`, first eight digest bytes read
big-endian. -/
def seedKey (seed : Val) (value : Val) : Except Err Nat := do
  let canon ← canonicalBytes value
  let data := utf8Bytes (pyStr seed) ++ [0x1F] ++ canon
  return beBytesToNat ((blake2b16 data).take 8)

/-- Embedded lens `trim`: strips strings, passes everything else through
unchanged (and never raises). -/
def trim : Val → Val
  | .str s => .str (pyStrip s)
  | x => x

/-- One step of textwrap.dedent's margin fold. -/
def marginMerge (margin indent : List Char) : List Char :=
  if margin.isPrefixOf indent then margin
  else if indent.isPrefixOf margin then indent
  else (margin.zip indent).takeWhile (fun p => p.1 == p.2) |>.map Prod.fst

/-- Embedded `textwrap.dedent`: blank out whitespace-only lines, compute
the common leading space/tab margin of the remaining lines, strip it. -/
def textwrapDedent (s : String) : String :=
  let isWs := fun c => c == ' ' || c == '\t'
  let lines := (splitChar '\n' s.data)
  let lines := lines.map fun l =>
    if l ≠ [] && l.all isWs then [] else l
  let indents := (lines.filter fun l => l.any (fun c => !isWs c)).map (List.takeWhile isWs)
  let margin := match indents with
    | [] => []
    | first :: rest => rest.foldl marginMerge first
  let lines := if margin ≠ [] then
      lines.map fun l => if margin.isPrefixOf l then l.drop margin.length else l
    else lines
  joinSep "\n" (lines.map fun l => ⟨l⟩)

/-- Embedded lens `dedent`. -/
def dedent : Val → Except Err Val
  | .str s => .ok (.str (textwrapDedent s))
  | _ => .error (errF "F102" "dedent expects string")

/-- Collapse `[ \t]+` runs to one space (`re.sub(r"[ \t]+", " ", x)`). -/
def squeezeCharsF (fuel : Nat) (cs : List Char) : List Char :=
  match fuel with
  | 0 => []
  | fuel + 1 =>
      match cs with
      | [] => []
      | c :: rest =>
          if c == ' ' || c == '\t' then
            ' ' :: squeezeCharsF fuel (rest.dropWhile fun c' => c' == ' ' || c' == '\t')
          else c :: squeezeCharsF fuel rest
  termination_by structural fuel

/-- Collapse `[ \t]+` runs to one space, with a budget of one unit per
surviving character (strictly more than any scan needs). -/
def squeezeChars (cs : List Char) : List Char :=
  squeezeCharsF (cs.length + 1) cs

/-- Embedded lens `squeeze_spaces`. -/
def squeeze_spaces : Val → Except Err Val
  | .str s => .ok (.str ⟨squeezeChars s.data⟩)
  | _ => .error (errF "F102" "squeeze_spaces expects string")

/-- Decode a UTF-8 byte list, dropping undecodable bytes
(`bytes.decode("utf-8", errors="ignore")`; for the truncated-valid
inputs `limit` produces this only drops a trailing incomplete sequence). -/
def utf8DecodeIgnoreF (fuel : Nat) (bs : List Nat) : List Char :=
  match fuel with
  | 0 => []
  | fuel + 1 =>
  match bs with
  | [] => []
  | b :: rest =>
      if b < 0x80 then Char.ofNat b :: utf8DecodeIgnoreF fuel rest
      else if 0xC2 ≤ b && b < 0xE0 then
        match rest with
        | c1 :: rest' =>
            if 0x80 ≤ c1 && c1 < 0xC0 then
              Char.ofNat ((b - 0xC0) * 64 + (c1 - 0x80)) :: utf8DecodeIgnoreF fuel rest'
            else utf8DecodeIgnoreF fuel (c1 :: rest')
        | [] => []
      else if 0xE0 ≤ b && b < 0xF0 then
        match rest with
        | c1 :: c2 :: rest' =>
            if 0x80 ≤ c1 && c1 < 0xC0 && 0x80 ≤ c2 && c2 < 0xC0 then
              Char.ofNat ((b - 0xE0) * 4096 + (c1 - 0x80) * 64 + (c2 - 0x80)) :: utf8DecodeIgnoreF fuel rest'
            else utf8DecodeIgnoreF fuel (c1 :: c2 :: rest')
        | _ => []
      else if 0xF0 ≤ b && b < 0xF5 then
        match rest with
        | c1 :: c2 :: c3 :: rest' =>
            if 0x80 ≤ c1 && c1 < 0xC0 && 0x80 ≤ c2 && c2 < 0xC0 && 0x80 ≤ c3 && c3 < 0xC0 then
              Char.ofNat ((b - 0xF0) * 262144 + (c1 - 0x80) * 4096 + (c2 - 0x80) * 64 + (c3 - 0x80))
                :: utf8DecodeIgnoreF fuel rest'
            else utf8DecodeIgnoreF fuel (c1 :: c2 :: c3 :: rest')
        | _ => []
      else utf8DecodeIgnoreF fuel rest
  termination_by structural fuel

/-- Decode a UTF-8 byte list dropping undecodable bytes, with a budget
of one unit per input byte. -/
def utf8DecodeIgnore (bs : List Nat) : List Char :=
  utf8DecodeIgnoreF (bs.length + 1) bs

/-- Python slice `b[:n]` for an `int` bound `n` (negative counts from the
end). -/
def pySliceTake {α : Type} (xs : List α) (n : Int) : List α :=
  if n < 0 then xs.take (xs.length - (-n).toNat) else xs.take n.toNat

/-- Embedded lens `limit(n)`: truncate to at most `n` UTF-8 bytes. -/
def limit (x : Val) (n : Int) : Except Err Val :=
  match x with
  | .str s =>
      let b := utf8Bytes s
      if (b.length : Int) ≤ n then .ok (.str s)
      else .ok (.str ⟨utf8DecodeIgnore (pySliceTake b n)⟩)
  | _ => .error (errF "F102" "limit expects string")

/-- Embedded lens `lower` (`str.lower`; ASCII case mapping — the spec
pins `lower`/`upper` to ASCII-safe folds and no claim exercises
non-ASCII case). -/
def lower : Val → Except Err Val
  | .str s => .ok (.str ⟨s.data.map Char.toLower⟩)
  | _ => .error (errF "F102" "lower expects string")

/-- Embedded lens `upper`. -/
def upper : Val → Except Err Val
  | .str s => .ok (.str ⟨s.data.map Char.toUpper⟩)
  | _ => .error (errF "F102" "upper expects string")

/-- Python `s.replace(old, new)` on character lists: non-overlapping
left-to-right replacement; an empty `old` inserts `new` at every
position. -/
def pyReplaceCharsF (old new : List Char) (fuel : Nat) (cs : List Char) : List Char :=
  match fuel with
  | 0 => []
  | fuel + 1 =>
      match cs with
      | [] => if old == [] then new else []
      | c :: rest =>
          match old with
          | [] => new ++ c :: pyReplaceCharsF [] new fuel rest
          | o :: os =>
              if (o :: os).isPrefixOf (c :: rest) then
                new ++ pyReplaceCharsF (o :: os) new fuel (rest.drop os.length)
              else c :: pyReplaceCharsF (o :: os) new fuel rest
  termination_by structural fuel

/-- Python `s.replace(old, new)`, with a budget of one unit per input
character (each step consumes at least one). -/
def pyReplaceChars (old new : List Char) (cs : List Char) : List Char :=
  pyReplaceCharsF old new (cs.length + 1) cs

/-- Embedded lens `replace(old, new)`. -/
def replace (x : Val) (old new : String) : Except Err Val :=
  match x with
  | .str s => .ok (.str ⟨pyReplaceChars old.data new.data s.data⟩)
  | _ => .error (errF "F102" "replace expects string")

/-- Embedded lens `regex_replace(pattern, repl)`; the regex engine is the
external `ext.reSub`, whose `none` result models `re.error`. -/
def regex_replace (ext : Ext) (x : Val) (pattern repl : String) : Except Err Val :=
  match x with
  | .str s =>
      match ext.reSub pattern repl s with
      | some r => .ok (.str r)
      | none => .error (errF "F803" "regex timeout or error")
  | _ => .error (errF "F102" "regex_replace expects string")

/-- Embedded lens `choose(seed=…)`: seed required, list required,
non-empty required, then pick index `_seed_key(seed, x) mod len(x)`. -/
def choose (x : Val) (seed : Option Val) : Except Err Val :=
  match seed with
  | none => .error (errF "F804" "Seed required for deterministic lens 'choose'")
  | some s =>
      match x with
      | .list items =>
          if items.isEmpty then .error (errF "F102" "choose expects non-empty list")
          else do
            let k ← seedKey s (.list items)
            return items.getD (k % items.length) .null
      | _ => .error (errF "F102" "choose expects list")

/-- Embedded lens `shuffle(seed=…)`: the Mersenne-Twister permutation is
the external `ext.shufflePerm`, applied to the same derived key. -/
def shuffle (ext : Ext) (x : Val) (seed : Option Val) : Except Err Val :=
  match seed with
  | none => .error (errF "F804" "Seed required for deterministic lens 'shuffle'")
  | some s =>
      match x with
      | .list items => do
          let k ← seedKey s (.list items)
          return .list (ext.shufflePerm k items)
      | _ => .error (errF "F102" "shuffle expects list")

/-! ### Anchor resolver (`anchors.py`)

Anchor names are dict values and Python keys the anchor map by them
directly, so the anchor map is keyed by `Val` with Python `==`. -/

/-- Membership in a `Val`-keyed map. -/
def aMem (k : Val) : List (Val × Val) → Bool
  | [] => false
  | (k', _) :: rest => Val.beq k k' || aMem k rest

/-- Lookup in a `Val`-keyed map. -/
def aGet? (k : Val) : List (Val × Val) → Option Val
  | [] => none
  | (k', v) :: rest => if Val.beq k k' then some v else aGet? k rest

/-- Assignment in a `Val`-keyed map (append; collect errors on existing
keys before ever reassigning). -/
def aSet (m : List (Val × Val)) (k : Val) (v : Val) : List (Val × Val) :=
  m ++ [(k, v)]

mutual

/-- Number of nodes of a value (used only to pick a sufficient recursion
budget for alias substitution). -/
def valNodes : Val → Nat
  | .null | .bool _ | .int _ | .str _ | .fence _ | .item _ _ _ _ => 1
  | .list items => 1 + valNodesList items
  | .dict es => 1 + valNodesEntries es

/-- Node count of a list of values. -/
def valNodesList : List Val → Nat
  | [] => 0
  | v :: rest => valNodes v + valNodesList rest

/-- Node count of dict entries. -/
def valNodesEntries : List (String × Val) → Nat
  | [] => 0
  | (_, v) :: rest => valNodes v + valNodesEntries rest

end

mutual

/-- Embedded `_walk_collect`: gather `{&: name, value: V}` anchors into
the map (error `F202` on redefinition).  For every dict the keys `&` and
`value` are not descended into, exactly as in the source. -/
def walkCollect (v : Val) (anchors : List (Val × Val)) : Except Err (List (Val × Val)) :=
  match v with
  | .dict es => do
      let anchors ←
        match dictGet? "&" es, dictGet? "value" es with
        | some name, some inner =>
            if aMem name anchors then
              .error (errF "F202" ("Anchor redefinition: " ++ pyStr name))
            else
              .ok (aSet anchors name inner)
        | _, _ => .ok anchors
      walkCollectEntries es anchors
  | .list items => walkCollectList items anchors
  | _ => .ok anchors

/-- Collect pass over dict entries, skipping keys `&` and `value`. -/
def walkCollectEntries (es : List (String × Val)) (anchors : List (Val × Val)) :
    Except Err (List (Val × Val)) :=
  match es with
  | [] => .ok anchors
  | (k, v) :: rest => do
      let anchors ← if k == "&" || k == "value" then .ok anchors else walkCollect v anchors
      walkCollectEntries rest anchors

/-- Collect pass over list items. -/
def walkCollectList (items : List Val) (anchors : List (Val × Val)) :
    Except Err (List (Val × Val)) :=
  match items with
  | [] => .ok anchors
  | v :: rest => do
      let anchors ← walkCollect v anchors
      walkCollectList rest anchors

end

mutual

/-- Embedded `_walk_substitute`: replace singleton `{*: name}` aliases by
the recursively substituted anchored value (cycle and missing-anchor
errors `F201`), strip `{&: name, value: V}` wrappers down to the
substituted `V`, and otherwise map over the structure.  The `fuel`
parameter only bounds the recursion; callers pass a budget provably
larger than any reachable call depth, so the `MODEL-FUEL` branch is
unreachable. -/
def walkSubstitute (fuel : Nat) (anchors : List (Val × Val)) (visiting : List Val) (v : Val) :
    Except Err Val :=
  match fuel with
  | 0 => .error (errF "MODEL-FUEL" "substitution budget exhausted")
  | fuel + 1 =>
      match v with
      | .dict es =>
          match es, dictGet? "*" es with
          | [_], some name =>
              if visiting.any (fun n => Val.beq n name) then
                .error (errF "F201" "Anchor cycle detected")
              else
                match aGet? name anchors with
                | none => .error (errF "F201" ("Undefined anchor alias: " ++ pyStr name))
                | some av => walkSubstitute fuel anchors (name :: visiting) av
          | _, _ =>
              match dictGet? "&" es, dictGet? "value" es with
              | some _, some inner => walkSubstitute fuel anchors visiting inner
              | _, _ => do
                  let es' ← walkSubstituteEntries fuel anchors visiting es
                  return .dict es'
      | .list items => do
          let items' ← walkSubstituteList fuel anchors visiting items
          return .list items'
      | other => .ok other
  termination_by structural fuel

/-- Substitute pass over dict entries (keys kept, values substituted). -/
def walkSubstituteEntries (fuel : Nat) (anchors : List (Val × Val)) (visiting : List Val)
    (es : List (String × Val)) : Except Err (List (String × Val)) :=
  match fuel with
  | 0 => .error (errF "MODEL-FUEL" "substitution budget exhausted")
  | fuel + 1 =>
      match es with
      | [] => .ok []
      | (k, v) :: rest => do
          let v' ← walkSubstitute fuel anchors visiting v
          let rest' ← walkSubstituteEntries fuel anchors visiting rest
          return (k, v') :: rest'
  termination_by structural fuel

/-- Substitute pass over list items. -/
def walkSubstituteList (fuel : Nat) (anchors : List (Val × Val)) (visiting : List Val)
    (items : List Val) : Except Err (List Val) :=
  match fuel with
  | 0 => .error (errF "MODEL-FUEL" "substitution budget exhausted")
  | fuel + 1 =>
      match items with
      | [] => .ok []
      | v :: rest => do
          let v' ← walkSubstitute fuel anchors visiting v
          let rest' ← walkSubstituteList fuel anchors visiting rest
          return v' :: rest'
  termination_by structural fuel

end

/-- Recursion budget for `walkSubstitute`: along any call path at most
`#anchors` alias expansions occur (the visiting set grows at each one)
and between expansions the recursion is structural, so the depth is at
most `(#anchors + 1) * (total node count + 1)`; the extra factor covers
the entry/list helper frames. -/
def substFuel (anchors : List (Val × Val)) (v : Val) : Nat :=
  let total := valNodes v + (anchors.map (fun p => valNodes p.2)).sum
  (anchors.length + 1) * (2 * total + 2) + 2

/-- Embedded `resolve_anchors`: a collect pass then a substitute pass. -/
def resolveAnchors (v : Val) : Except Err Val := do
  let anchors ← walkCollect v []
  walkSubstitute (substFuel anchors v) anchors [] v

/-! ### Expression engine (`expr.py`) -/

/-- Python truthiness (`bool(x)`) on pipeline values.  A `Fence` object
defines neither `__bool__` nor `__len__`, so it is truthy. -/
def pyTruthy : Val → Bool
  | .null => false
  | .bool b => b
  | .int n => n ≠ 0
  | .str s => !s.data.isEmpty
  | .list items => !items.isEmpty
  | .dict es => !es.isEmpty
  | .fence _ => true
  | .item _ _ _ _ => true

/-- Embedded `expr._get`: walk a dotted path through nested mappings,
error `F702` when a component is missing or the current value is not a
mapping. -/
def exprGet (env : List (String × Val)) (path : String) : Except Err Val :=
  let rec walk (cur : Val) : List String → Except Err Val
    | [] => .ok cur
    | p :: rest =>
        match cur with
        | .dict es =>
            match dictGet? p es with
            | some v => walk v rest
            | none => .error (errF "F702" ("If-expression unknown variable '" ++ path ++ "'"))
        | _ => .error (errF "F702" ("If-expression unknown variable '" ++ path ++ "'"))
  walk (.dict env) (splitDots path)

/-- Embedded `expr._cmp`.  Python's `bool` is an `int` subclass, so
`True < 2` would compare numerically in Python; boolean operands of
numeric comparisons are outside the model (no claim exercises them). -/
def exprCmp (a : Val) (op : String) (b : Val) : Except Err Bool :=
  if op == "==" then .ok (Val.beq a b)
  else if op == "!=" then .ok (!Val.beq a b)
  else if op == "<" || op == "<=" || op == ">" || op == ">=" then
    match a, b with
    | .int x, .int y =>
        if op == "<" then .ok (x < y)
        else if op == "<=" then .ok (x ≤ y)
        else if op == ">" then .ok (x > y)
        else .ok (x ≥ y)
    | _, _ => .error (errF "F703" "Type error: numeric comparison requires numbers")
  else if op == "in" then
    match b with
    | .list items => .ok (items.any (Val.beq a))
    | .str t =>
        match a with
        | .str s => .ok (strHasSub s t)
        | _ => .error (errF "MODEL-TypeError" "'in <string>' requires string as left operand")
    | _ => .error (errF "F703" "Type error: right operand of 'in' must be list or string")
  else .error (errF "F701" ("Unknown operator '" ++ op ++ "'"))

/-- Python `int(tok)` for a bare token: optional sign then digits with
single underscores between digits, `none` on `ValueError`. -/
def pyParseInt (s : String) : Option Int :=
  let cs := s.data
  let (neg, digits) :=
    match cs with
    | '+' :: rest => (false, rest)
    | '-' :: rest => (true, rest)
    | rest => (false, rest)
  let rec gather (l : List Char) (prevDigit : Bool) (acc : Nat) : Option Nat :=
    match l with
    | [] => if prevDigit then some acc else none
    | c :: rest =>
        if isDigitChar c then gather rest true (acc * 10 + (c.toNat - 48))
        else if c == '_' && prevDigit then
          match rest with
          | d :: _ => if isDigitChar d then gather rest false acc else none
          | [] => none
    else none
  match gather digits false 0 with
  | some n => some (if neg then -(n : Int) else (n : Int))
  | none => none

/-- String-literal tail of `_parse_literal`: quoted forms are unquoted
and unescaped by the source's three sequential `str.replace` calls. -/
def parseLiteralStr (tok : String) : Except Err Val :=
  let cs := tok.data
  let quoted :=
    !cs.isEmpty &&
    ((cs.head? == some '"' && cs.getLast? == some '"') ||
     (cs.head? == some '\'' && cs.getLast? == some '\''))
  if quoted then
    let inner := (cs.drop 1).dropLast
    let inner := pyReplaceChars ['\\', '"'] ['"'] inner
    let inner := pyReplaceChars ['\\', '\''] ['\''] inner
    let inner := pyReplaceChars ['\\', '\\'] ['\\'] inner
    .ok (.str ⟨inner⟩)
  else .ok .null

/-- Embedded `_parse_literal`.  As in the source it returns the parsed
Python value, with `None` both for the `null` literal and for
"not a literal" — the caller cannot tell these apart.  Here both cases
are `Val.null`.  Float literals are outside the model. -/
def parseLiteral (tok : String) : Except Err Val :=
  if tok == "true" then .ok (.bool true)
  else if tok == "false" then .ok (.bool false)
  else if tok == "null" then .ok .null
  else
    let cs := tok.data
    let numericGuard :=
      match cs with
      | c :: rest =>
          isDigitChar c ||
          ((c == '+' || c == '-') && (match rest with | d :: _ => isDigitChar d | [] => false))
      | [] => false
    if numericGuard then
      if cs.any (fun c => c == '.' || c == 'e' || c == 'E') then
        .error (errF "MODEL-FLOAT" "float literals are outside the model")
      else
        match pyParseInt tok with
        | some n => .ok (.int n)
        | none => parseLiteralStr tok
    else parseLiteralStr tok

/-- Word character for the tokenizer's `\b` boundaries (`\w`;
ASCII — Unicode word characters are outside the model). -/
def isWordChar (c : Char) : Bool :=
  c.isAlphanum || c == '_'

/-- Character class `\s` of the tokenizer (Python whitespace). -/
def isSpaceRe (c : Char) : Bool := isPySpace c

/-- Scan a quoted alternative `q(?:[^q\\]|\\.)*q` starting after the
opening quote; returns the match (with quotes) and the rest. -/
def scanQuoted (q : Char) (cs : List Char) : Option (List Char × List Char) :=
  match cs with
  | [] => none
  | c :: rest =>
      if c == q then some ([q], rest)
      else if c == '\\' then
        match rest with
        | e :: rest' => (scanQuoted q rest').map fun (m, r) => ('\\' :: e :: m, r)
        | [] => none
      else (scanQuoted q rest).map fun (m, r) => (c :: m, r)

/-- One findall step of the if-expression tokenizer at the current
position; `prev` is the previous character (for `\b`).  Returns the
matched token and the rest, or `none` when no alternative matches here. -/
def exprMatchAt (prev : Option Char) (cs : List Char) : Option (List Char × List Char) :=
  match cs with
  | [] => none
  | c :: rest =>
      let boundaryBefore := match prev with | none => true | some p => !isWordChar p
      let kw := fun (w : List Char) =>
        if boundaryBefore && w.isPrefixOf (c :: rest) then
          let after := (c :: rest).drop w.length
          match after with
          | [] => some (w, ([] : List Char))
          | a :: _ => if isWordChar a then none else some (w, after)
        else none
      if c == '"' then
        match scanQuoted '"' rest with
        | some (m, r) => some ('"' :: m, r)
        | none => some ((c :: rest).takeWhile (fun x => !isSpaceRe x && x ≠ '(' && x ≠ ')'),
                        (c :: rest).dropWhile (fun x => !isSpaceRe x && x ≠ '(' && x ≠ ')'))
      else if c == '\'' then
        match scanQuoted '\'' rest with
        | some (m, r) => some ('\'' :: m, r)
        | none => some ((c :: rest).takeWhile (fun x => !isSpaceRe x && x ≠ '(' && x ≠ ')'),
                        (c :: rest).dropWhile (fun x => !isSpaceRe x && x ≠ '(' && x ≠ ')'))
      else if ['=', '='].isPrefixOf (c :: rest) then some (['=', '='], rest.drop 1)
      else if ['!', '='].isPrefixOf (c :: rest) then some (['!', '='], rest.drop 1)
      else if ['<', '='].isPrefixOf (c :: rest) then some (['<', '='], rest.drop 1)
      else if ['>', '='].isPrefixOf (c :: rest) then some (['>', '='], rest.drop 1)
      else match kw ['i', 'n'] with
      | some m => some m
      | none =>
        if c == '(' || c == ')' || c == '<' || c == '>' then some ([c], rest)
        else match kw ['a', 'n', 'd'] with
        | some m => some m
        | none => match kw ['o', 'r'] with
        | some m => some m
        | none => match kw ['n', 'o', 't'] with
        | some m => some m
        | none =>
            if !isSpaceRe c && c ≠ '(' && c ≠ ')' then
              some ((c :: rest).takeWhile (fun x => !isSpaceRe x && x ≠ '(' && x ≠ ')'),
                    (c :: rest).dropWhile (fun x => !isSpaceRe x && x ≠ '(' && x ≠ ')'))
            else none

/-- Embedded tokenizer: `re.findall` of the fixed pattern, scanning left
to right and skipping characters where no alternative matches. -/
def exprTokenizeAux (fuel : Nat) (prev : Option Char) (cs : List Char) : List String :=
  match fuel with
  | 0 => []
  | fuel + 1 =>
      match cs with
      | [] => []
      | c :: rest =>
          match exprMatchAt prev (c :: rest) with
          | some (m, r) => (⟨m⟩ : String) :: exprTokenizeAux fuel m.getLast? r
          | none => exprTokenizeAux fuel (some c) rest
  termination_by structural fuel

/-- Tokenize an if-expression. -/
def exprTokenize (s : String) : List String :=
  exprTokenizeAux (s.data.length + 1) none s.data

mutual

/-- Embedded `parse_primary`.  `not x` and parenthesized groups yield
booleans (as in the source, whose closures return Python bools there);
a missing token makes the source call `_get(env, None)` and crash with
`AttributeError`, modelled as `MODEL-AttributeError`. -/
def parsePrimary (fuel : Nat) (env : List (String × Val)) (toks : List String) (pos : Nat) :
    Except Err (Val × Nat) :=
  match fuel with
  | 0 => .error (errF "MODEL-FUEL" "expression recursion budget exhausted")
  | fuel + 1 =>
      match toks.get? pos with
      | some cur =>
          if cur == "(" then do
            let (val, pos) ← parseOr fuel env toks (pos + 1)
            if toks.get? pos ≠ some ")" then
              .error (errF "F701" "Missing closing ')'")
            else
              return (.bool val, pos + 1)
          else if cur == "not" then do
            let (v, pos) ← parsePrimary fuel env toks (pos + 1)
            return (.bool (!pyTruthy v), pos)
          else do
            let lit ← parseLiteral cur
            match lit with
            | .null =>
                match exprGet env cur with
                | .ok v => .ok (v, pos + 1)
                | .error e => .error e
            | v => .ok (v, pos + 1)
      | none => .error (errF "MODEL-AttributeError" "NoneType token reaches _get")
  termination_by structural fuel

/-- Embedded `parse_cmp`: a primary, an optional comparison, otherwise
truthiness. -/
def parseCmp (fuel : Nat) (env : List (String × Val)) (toks : List String) (pos : Nat) :
    Except Err (Bool × Nat) :=
  match fuel with
  | 0 => .error (errF "MODEL-FUEL" "expression recursion budget exhausted")
  | fuel + 1 => do
      let (left, pos) ← parsePrimary fuel env toks pos
      match toks.get? pos with
      | some op =>
          if op == "==" || op == "!=" || op == "<" || op == "<=" || op == ">" || op == ">=" ||
             op == "in" then do
            let (right, pos') ← parsePrimary fuel env toks (pos + 1)
            let b ← exprCmp left op right
            return (b, pos')
          else return (pyTruthy left, pos)
      | none => return (pyTruthy left, pos)
  termination_by structural fuel

/-- Embedded `parse_and`, including Python's `and` short-circuit: once
the accumulator is false the right operand is *not* parsed. -/
def parseAnd (fuel : Nat) (env : List (String × Val)) (toks : List String) (pos : Nat) :
    Except Err (Bool × Nat) :=
  match fuel with
  | 0 => .error (errF "MODEL-FUEL" "expression recursion budget exhausted")
  | fuel + 1 => do
      let (val, pos) ← parseCmp fuel env toks pos
      parseAndLoop fuel env toks pos val
  termination_by structural fuel

/-- Loop of `parse_and`. -/
def parseAndLoop (fuel : Nat) (env : List (String × Val)) (toks : List String) (pos : Nat)
    (val : Bool) : Except Err (Bool × Nat) :=
  match fuel with
  | 0 => .error (errF "MODEL-FUEL" "expression recursion budget exhausted")
  | fuel + 1 =>
      if toks.get? pos == some "and" then
        if val then do
          let (v, pos') ← parseCmp fuel env toks (pos + 1)
          parseAndLoop fuel env toks pos' v
        else parseAndLoop fuel env toks (pos + 1) false
      else .ok (val, pos)
  termination_by structural fuel

/-- Embedded `parse_or`, including Python's `or` short-circuit: once the
accumulator is true the right operand is *not* parsed. -/
def parseOr (fuel : Nat) (env : List (String × Val)) (toks : List String) (pos : Nat) :
    Except Err (Bool × Nat) :=
  match fuel with
  | 0 => .error (errF "MODEL-FUEL" "expression recursion budget exhausted")
  | fuel + 1 => do
      let (val, pos) ← parseAnd fuel env toks pos
      parseOrLoop fuel env toks pos val
  termination_by structural fuel

/-- Loop of `parse_or`. -/
def parseOrLoop (fuel : Nat) (env : List (String × Val)) (toks : List String) (pos : Nat)
    (val : Bool) : Except Err (Bool × Nat) :=
  match fuel with
  | 0 => .error (errF "MODEL-FUEL" "expression recursion budget exhausted")
  | fuel + 1 =>
      if toks.get? pos == some "or" then
        if val then parseOrLoop fuel env toks (pos + 1) true
        else do
          let (v, pos') ← parseAnd fuel env toks (pos + 1)
          parseOrLoop fuel env toks pos' v
      else .ok (val, pos)
  termination_by structural fuel

end

/-- Recursion budget for the expression parser: between two frames of
the same parse function at least one token is consumed, and a chain
`or → and → cmp → primary → (` spans at most five frames, so the depth
never exceeds `5 * (#tokens + 2)`; the budget is unreachable. -/
def exprFuel (toks : List String) : Nat :=
  5 * toks.length + 16

/-- Embedded `eval_if`: blank expressions are true; otherwise tokenize,
parse `or`-expressions and demand all tokens consumed. -/
def evalIf (expr : String) (env : List (String × Val)) : Except Err Bool :=
  let s := pyStrip expr
  if s.data.isEmpty then .ok true
  else
    let toks := exprTokenize s
    if toks.isEmpty then .ok true
    else do
      let (result, pos) ← parseOr (exprFuel toks) env toks 0
      if pos ≠ toks.length then .error (errF "F701" "Trailing tokens in if-expression")
      else return result

/-! ### Lexer (`lexer.py`) -/

/-- Token kinds, as in `tokens.TokKind`. -/
inductive TokKind where
  | AT | IDENT | STRING | NUMBER | BOOLEAN | NULL
  | LBRACE | RBRACE | LBRACKET | RBRACKET | LPAREN | RPAREN
  | COMMA | COLON | AMP | STAR | EQUAL | DASH | PIPE
  | NEWLINE | INDENT | DEDENT | FENCE | EOF
deriving DecidableEq, Repr

/-- A token: kind, lexeme value, source position. -/
structure Token where
  kind : TokKind
  value : String
  pos : Pos
deriving DecidableEq, Repr

/-- Modelled from the spec: the `limits` module imported by the lexer,
evaluator and import expander is missing from `src/` (the package does
not even import without it).  Spec §5 requires a maximum fence body
size but names no number; any generous bound is behaviourally identical
for inputs below it. -/
def MAX_FENCE_BYTES : Nat := 1000000

/-- Modelled from the spec: maximum lens chain length per value
(spec §4.5 "The chain length is capped"; no number given). -/
def MAX_LENS_CHAIN : Nat := 32

/-- Lexer identifier start characters (`IDENT_START`). -/
def isIdentStart (c : Char) : Bool :=
  ('a' ≤ c && c ≤ 'z') || ('A' ≤ c && c ≤ 'Z') || c == '_'

/-- Lexer identifier body characters (`IDENT_BODY`). -/
def isIdentBody (c : Char) : Bool :=
  isIdentStart c || isDigitChar c || c == '.'

/-- Normalize line endings (`replace("\r\n", "\n").replace("\r", "\n")`). -/
def normalizeNewlines : List Char → List Char
  | [] => []
  | '\r' :: '\n' :: rest => '\n' :: normalizeNewlines rest
  | '\r' :: rest => '\n' :: normalizeNewlines rest
  | c :: rest => c :: normalizeNewlines rest

/-- Lexer state: remaining source, position, reversed token
accumulator, indentation stack (head is the top), beginning-of-line and
in-fence flags (`_Lexer.__init__`). -/
structure LexSt where
  rest : List Char
  line : Nat
  col : Nat
  toks : List Token
  indentStack : List Nat
  bol : Bool
  inFence : Bool
deriving Repr

/-- Embedded `advance()` for one character: newline moves to the next
line and re-arms `bol`; `bol` is never cleared here (the branches of
`lex` clear it explicitly, as in the source). -/
def lexAdv1 (st : LexSt) : LexSt :=
  match st.rest with
  | [] => st
  | c :: rest =>
      if c == '\n' then { st with rest, line := st.line + 1, col := 1, bol := true }
      else { st with rest, col := st.col + 1 }

/-- Consume `n` characters none of which is a newline (used where the
source bumps `col` directly or advances over a newline-free run). -/
def lexAdvFlat (st : LexSt) (n : Nat) : LexSt :=
  { st with rest := st.rest.drop n, col := st.col + n }

/-- Append a token (`emit`). -/
def lexEmit (st : LexSt) (k : TokKind) (v : String) (p : Pos) : LexSt :=
  { st with toks := ⟨k, v, p⟩ :: st.toks }

/-- Advancing consumes exactly the head character. -/
theorem lexAdv1_rest_eq (st : LexSt) : (lexAdv1 st).rest = st.rest.tail := by
  obtain ⟨rest, line, col, toks, stack, bol, fence⟩ := st
  cases rest with
  | nil => rfl
  | cons c r => by_cases hc : c == '\n' <;> simp [lexAdv1, hc]

/-- Emitting does not touch the remaining input. -/
theorem lexEmit_rest_eq (st : LexSt) (k : TokKind) (v : String) (p : Pos) :
    (lexEmit st k v p).rest = st.rest := rfl

/-- Current position. -/
def lexPos (st : LexSt) : Pos := ⟨st.line, st.col⟩

/-- DEDENT-emitting pop loop of `_handle_indent`: pop while the top
exceeds `level`, then demand an exact match (the source would hit an
`IndexError` if the stack emptied; unreachable since the bottom is 0). -/
def dedentTo (st : LexSt) (level : Nat) (start : Pos) : Except Err LexSt :=
  let rec go (stack : List Nat) (st : LexSt) : Except Err LexSt :=
    match stack with
    | top :: rest =>
        if top > level then
          go rest (lexEmit { st with indentStack := rest } .DEDENT "" (lexPos st))
        else if top ≠ level then .error ⟨"F002", "Malformed dedent", some start⟩
        else .ok st
    | [] => .error (errF "MODEL-IndexError" "empty indentation stack")
  go st.indentStack st

/-- Embedded `_handle_indent`: count leading spaces, reject tabs, treat
blank lines as bare newlines, enforce the two-space unit and the
one-level increment outside fences, emit INDENT/DEDENT. -/
def handleIndent (st : LexSt) : Except Err LexSt :=
  let start := lexPos st
  let count := (st.rest.takeWhile (· == ' ')).length
  let st := lexAdvFlat st count
  if st.rest.head? == some '\t' then
    .error ⟨"F002", "Tabs are not allowed for indentation or spacing", some (lexPos st)⟩
  else
    let st := { st with bol := false }
    if st.rest.head? == some '\n' then
      .ok (lexAdv1 (lexEmit st .NEWLINE "" (lexPos st)))
    else if !st.inFence && count % 2 ≠ 0 then
      .error ⟨"F002", "Indentation must be multiples of 2 spaces", some start⟩
    else if st.inFence then .ok st
    else
      let level := count / 2
      match st.indentStack with
      | [] => .error (errF "MODEL-IndexError" "empty indentation stack")
      | cur :: _ =>
          if level == cur then .ok st
          else if level == cur + 1 then
            .ok (lexEmit { st with indentStack := level :: st.indentStack } .INDENT "" (lexPos st))
          else if level < cur then dedentTo st level start
          else .error ⟨"F002", "Indentation increased by more than one level", some start⟩

/-- Embedded `_number_or_ident` lookahead: sign, digits, optional
fraction, optional exponent; `none` when no digit was seen or the
exponent is empty (the caller then falls through). -/
def scanNumber (cs : List Char) : Option (String × Nat) :=
  let (sign, rest1) :=
    match cs with
    | c :: rest => if c == '+' || c == '-' then ([c], rest) else ([], cs)
    | [] => ([], cs)
  let intPart := rest1.takeWhile isDigitChar
  let rest2 := rest1.drop intPart.length
  let (fracPart, rest3) :=
    match rest2 with
    | '.' :: r =>
        let ds := r.takeWhile isDigitChar
        ('.' :: ds, r.drop ds.length)
    | _ => ([], rest2)
  let hasDigit := !intPart.isEmpty || fracPart.length > 1
  let expResult : Option (List Char × List Char) :=
    match rest3 with
    | c :: r =>
        if c == 'e' || c == 'E' then
          let (es, r1) :=
            match r with
            | s :: r' => if s == '+' || s == '-' then ([c, s], r') else ([c], r)
            | [] => ([c], r)
          let ds := r1.takeWhile isDigitChar
          if ds.isEmpty then none else some (es ++ ds, r1.drop ds.length)
        else some ([], rest3)
    | [] => some ([], rest3)
  match expResult with
  | none => none
  | some (expPart, _) =>
      if hasDigit then
        let lexeme := sign ++ intPart ++ fracPart ++ expPart
        some (⟨lexeme⟩, lexeme.length)
      else none

/-- Embedded `_ident_or_keyword` lookahead: an `IDENT_BODY` run,
classified as boolean, null or identifier. -/
def scanIdent (cs : List Char) : Token × Nat :=
  let body := cs.takeWhile isIdentBody
  let lexeme : String := ⟨body⟩
  let kind :=
    if lexeme == "true" || lexeme == "false" then TokKind.BOOLEAN
    else if lexeme == "null" then TokKind.NULL
    else TokKind.IDENT
  (⟨kind, lexeme, ⟨0, 0⟩⟩, body.length)

/-- Body loop of an ordinary double-quoted string: escape pass-through,
ends at the closing quote, `F003` at end of input.  Returns the
accumulated value and the state after the closing quote. -/
def scanStrBody (fuel : Nat) (st : LexSt) (start : Pos) (acc : List Char) :
    Except Err (List Char × LexSt) :=
  match fuel with
  | 0 => .error (errF "MODEL-FUEL" "string scan budget exhausted")
  | fuel + 1 =>
      match st.rest with
      | [] => .error ⟨"F003", "Unterminated string", some start⟩
      | c :: rest =>
          if c == '"' then .ok (acc.reverse, lexAdv1 st)
          else if c == '\\' then
            match rest with
            | e :: _ =>
                scanStrBody fuel (lexAdv1 (lexAdv1 st)) start (e :: '\\' :: acc)
            | [] =>
                scanStrBody fuel (lexAdv1 st) start ('\\' :: acc)
          else scanStrBody fuel (lexAdv1 st) start (c :: acc)
  termination_by structural fuel

/-- Body loop of a triple-quoted string: raw until `"""`, `F003` at end
of input. -/
def scanTripleBody (fuel : Nat) (st : LexSt) (start : Pos) (acc : List Char) :
    Except Err (List Char × LexSt) :=
  match fuel with
  | 0 => .error (errF "MODEL-FUEL" "string scan budget exhausted")
  | fuel + 1 =>
      match st.rest with
      | [] => .error ⟨"F003", "Unterminated triple-quoted string", some start⟩
      | '"' :: '"' :: '"' :: _ => .ok (acc.reverse, lexAdv1 (lexAdv1 (lexAdv1 st)))
      | c :: _ => scanTripleBody fuel (lexAdv1 st) start (c :: acc)
  termination_by structural fuel

/-- Embedded `_string`: triple-quoted raw or ordinary quoted with escape
pass-through; emits one STRING token. -/
def scanString (st : LexSt) : Except Err LexSt :=
  let start := lexPos st
  match st.rest with
  | '"' :: '"' :: '"' :: _ => do
      let (buf, st') ← scanTripleBody (st.rest.length + 1) (lexAdv1 (lexAdv1 (lexAdv1 st))) start []
      return lexEmit st' .STRING ⟨buf⟩ start
  | _ => do
      let (buf, st') ← scanStrBody (st.rest.length + 1) (lexAdv1 st) start []
      return lexEmit st' .STRING ⟨buf⟩ start

/-- Space/tab test used by the fence close logic. -/
def isBlankChar (c : Char) : Bool := c == ' ' || c == '\t'

/-- Fence body loop.  `racc` is the reversed accumulated body, `bytes`
its UTF-8 length (the source re-encodes the whole buffer each step; the
running count is the same number).  Close handling: inline fences close
at any ```` ``` ````; multiline fences close only when the current line
so far is all blank, stripping that blank run. -/
def scanFenceBody (fuel : Nat) (st : LexSt) (start : Pos) (isInline : Bool) (racc : List Char)
    (bytes : Nat) : Except Err (List Char × LexSt) :=
  match fuel with
  | 0 => .error (errF "MODEL-FUEL" "fence scan budget exhausted")
  | fuel + 1 =>
  match st.rest with
  | [] => .error ⟨"F003", "Unterminated fenced block", some start⟩
  | '`' :: '`' :: '`' :: _ =>
      if isInline then .ok (racc.reverse, lexAdv1 (lexAdv1 (lexAdv1 st)))
      else if racc.head? == some '\n' || racc.isEmpty then
        .ok (racc.reverse, lexAdv1 (lexAdv1 (lexAdv1 st)))
      else
        let wsRun := racc.takeWhile isBlankChar
        let afterWs := racc.drop wsRun.length
        if afterWs.head? == some '\n' || afterWs.isEmpty then
          .ok (afterWs.reverse, lexAdv1 (lexAdv1 (lexAdv1 st)))
        else
          let newBytes := bytes + (utf8OfChar '`').length
          if newBytes > MAX_FENCE_BYTES then
            .error ⟨"F999", "Fenced block exceeds MAX_FENCE_BYTES", some start⟩
          else scanFenceBody fuel (lexAdv1 st) start isInline ('`' :: racc) newBytes
  | c :: _ =>
      let newBytes := bytes + (utf8OfChar c).length
      if newBytes > MAX_FENCE_BYTES then
        .error ⟨"F999", "Fenced block exceeds MAX_FENCE_BYTES", some start⟩
      else scanFenceBody fuel (lexAdv1 st) start isInline (c :: racc) newBytes
  termination_by structural fuel

/-- Embedded `_fence`: inline/multiline lookahead, optional language tag
and opening newline for multiline, body capture, final-newline cleanup;
emits one FENCE token.  `Char.isAlphanum` stands in for Python's
Unicode `str.isalnum` (ASCII; non-ASCII language tags are outside the
model). -/
def scanFence (st : LexSt) : Except Err LexSt := do
  let start := lexPos st
  let st := { lexAdvFlat st 3 with inFence := true }
  let afterTag := st.rest.dropWhile fun c =>
    c ≠ '\n' && c ≠ ' ' && c ≠ '`' && c.isAlphanum
  let afterWs := afterTag.dropWhile isBlankChar
  let isInline := afterWs.head? ≠ some '\n'
  let st :=
    if isInline then st
    else
      let tagLen := (st.rest.takeWhile fun c => c ≠ '\n' && c ≠ ' ' && c.isAlphanum).length
      let st := lexAdvFlat st tagLen
      let wsLen := (st.rest.takeWhile isBlankChar).length
      let st := lexAdvFlat st wsLen
      if st.rest.head? == some '\n' then lexAdv1 st else st
  let (buf, st') ← scanFenceBody (st.rest.length + 1) st start isInline [] 0
  let value :=
    if !isInline && buf.getLast? == some '\n' then buf.dropLast else buf
  return { lexEmit st' .FENCE ⟨value⟩ start with inFence := false }

/-- Body loop of a `${...}` scalar-variable token. -/
def scanDollarBrace (fuel : Nat) (st : LexSt) (start : Pos) (acc : List Char) :
    Except Err (List Char × LexSt) :=
  match fuel with
  | 0 => .error (errF "MODEL-FUEL" "scalar variable scan budget exhausted")
  | fuel + 1 =>
      match st.rest with
      | [] => .error ⟨"F402B", "Unclosed scalar variable ${...}", some start⟩
      | c :: _ =>
          if c == '\x7d' then .ok (acc.reverse ++ ['\x7d'], lexAdv1 st)
          else scanDollarBrace fuel (lexAdv1 st) start (c :: acc)
  termination_by structural fuel

/-- Embedded `$` branch of `lex`: `$name` (identifier with dots) or
`${...}`, emitted as a STRING token preserving the marker. -/
def scanScalarVar (st : LexSt) : Except Err LexSt := do
  let start := lexPos st
  let st := lexAdvFlat st 1
  match st.rest with
  | '\x7b' :: _ => do
      let (inner, st') ← scanDollarBrace (st.rest.length + 1) (lexAdv1 st) start []
      return lexEmit st' .STRING ⟨'$' :: '\x7b' :: inner⟩ start
  | c :: _ =>
      if isIdentStart c then
        let body := st.rest.takeWhile fun x => isIdentStart x || isDigitChar x || x == '.'
        let st' := lexAdvFlat st body.length
        return lexEmit st' .STRING ⟨'$' :: body⟩ start
      else .error ⟨"F402", "Undefined scalar variable (bad name)", some start⟩
  | [] => .error ⟨"F402", "Undefined scalar variable (bad name)", some start⟩

/-- EOF flush: DEDENTs back to level 0, then EOF (`lex` lines 154-159). -/
def lexFlush (st : LexSt) : LexSt :=
  let rec go (stack : List Nat) (st : LexSt) : LexSt :=
    match stack with
    | _ :: next :: rest =>
        go (next :: rest) (lexEmit { st with indentStack := next :: rest } .DEDENT "" (lexPos st))
    | _ => lexEmit st .EOF "" (lexPos st)
  go st.indentStack st

/-- One simple single-character token branch. -/
def lexSimple (st : LexSt) (k : TokKind) : LexSt :=
  { lexAdv1 (lexEmit st k "" (lexPos st)) with bol := false }

/-- The `bol = False` assignment each non-indent branch performs. -/
def clearBol (st : LexSt) : LexSt := { st with bol := false }

/-- One dispatch step of the lexer loop after indent handling: consumes
one token's worth of input and returns the next state (the branches of
the `while` body other than `_handle_indent`). -/
def lexStep (st : LexSt) : Except Err LexSt :=
  match st.rest with
  | [] => .ok st
  | c :: rest1 =>
      if c == '#' then
        let n := (st.rest.takeWhile (· ≠ '\n')).length
        .ok (lexAdvFlat st n)
      else if c == '\t' then
        .error ⟨"F002", "Tabs are not allowed for indentation or spacing", some (lexPos st)⟩
      else if c == ' ' then .ok (lexAdv1 st)
      else if c == '\n' then
        .ok (lexAdv1 (lexEmit st .NEWLINE "" (lexPos st)))
      else if c == '@' then .ok (lexSimple st .AT)
      else if c == '(' then .ok (lexSimple st .LPAREN)
      else if c == ')' then .ok (lexSimple st .RPAREN)
      else if c == '\x7b' then .ok (lexSimple st .LBRACE)
      else if c == '\x7d' then .ok (lexSimple st .RBRACE)
      else if c == '[' then .ok (lexSimple st .LBRACKET)
      else if c == ']' then .ok (lexSimple st .RBRACKET)
      else if c == ',' then .ok (lexSimple st .COMMA)
      else if c == ':' then .ok (lexSimple st .COLON)
      else if c == '&' then .ok (lexSimple st .AMP)
      else if c == '*' then .ok (lexSimple st .STAR)
      else if c == '=' then .ok (lexSimple st .EQUAL)
      else if c == '-' then
        if (rest1.head?.map isDigitChar).getD false then
          match scanNumber st.rest with
          | some (lexeme, n) =>
              .ok (clearBol (lexAdvFlat (lexEmit st .NUMBER lexeme (lexPos st)) n))
          | none => .ok (lexSimple st .DASH)
        else .ok (lexSimple st .DASH)
      else if c == '"' then do
        let st' ← scanString st
        .ok (clearBol st')
      else if st.rest.take 3 == ['`', '`', '`'] then do
        let st' ← scanFence st
        .ok (clearBol st')
      else if c == '|' && rest1.head? == some '>' then
        .ok (clearBol (lexAdvFlat (lexEmit st .PIPE "|>" (lexPos st)) 2))
      else if c == '$' then do
        let st' ← scanScalarVar st
        .ok (clearBol st')
      else if c == '+' || isDigitChar c then
        match scanNumber st.rest with
        | some (lexeme, n) =>
            .ok (clearBol (lexAdvFlat (lexEmit st .NUMBER lexeme (lexPos st)) n))
        | none =>
            if isIdentStart c then
              let (tok, n) := scanIdent st.rest
              .ok (clearBol (lexAdvFlat (lexEmit st tok.kind tok.value (lexPos st)) n))
            else .error ⟨"F001", "Invalid character '" ++ c.toString ++ "'", some (lexPos st)⟩
      else if isIdentStart c then
        let (tok, n) := scanIdent st.rest
        .ok (clearBol (lexAdvFlat (lexEmit st tok.kind tok.value (lexPos st)) n))
      else .error ⟨"F001", "Invalid character '" ++ c.toString ++ "'", some (lexPos st)⟩

/-- Main lexer loop (`_Lexer.lex`), one fuel unit per `while` iteration;
every iteration consumes at least one character, so the `MODEL-FUEL`
branch is unreachable for the budget `lex` passes. -/
def lexLoop (fuel : Nat) (st : LexSt) : Except Err (List Token) :=
  match fuel with
  | 0 => .error (errF "MODEL-FUEL" "lexer budget exhausted")
  | fuel + 1 =>
      match st.rest with
      | [] => .ok (lexFlush st).toks.reverse
      | _ => do
          let st ← if st.bol then handleIndent st else .ok st
          match st.rest with
          | [] => lexLoop fuel st
          | _ => do
              let st ← lexStep st
              lexLoop fuel st
  termination_by structural fuel

/-- Initial lexer state over normalized source text. -/
def lexInit (text : String) : LexSt :=
  ⟨normalizeNewlines text.data, 1, 1, [], [0], true, false⟩

/-- Embedded `lex`: run the loop with a budget larger than the input
(each iteration consumes at least one character). -/
def lex (text : String) : Except Err (List Token) :=
  let st := lexInit text
  lexLoop (st.rest.length + 4) st

/-! ### Parser (`parser.py`)

Parsing functions consume a token list and return the remainder; the
source's index `self.i` is the amount consumed.  All functions of the
mutually recursive block carry a fuel parameter; `parse` passes a
budget linear in the token count, far above any reachable call depth
(every loop iteration and every nesting level consumes a token). -/

/-- Enum member name, for the default `expect` message. -/
def tokKindName : TokKind → String
  | .AT => "AT" | .IDENT => "IDENT" | .STRING => "STRING" | .NUMBER => "NUMBER"
  | .BOOLEAN => "BOOLEAN" | .NULL => "NULL" | .LBRACE => "LBRACE" | .RBRACE => "RBRACE"
  | .LBRACKET => "LBRACKET" | .RBRACKET => "RBRACKET" | .LPAREN => "LPAREN"
  | .RPAREN => "RPAREN" | .COMMA => "COMMA" | .COLON => "COLON" | .AMP => "AMP"
  | .STAR => "STAR" | .EQUAL => "EQUAL" | .DASH => "DASH" | .PIPE => "PIPE"
  | .NEWLINE => "NEWLINE" | .INDENT => "INDENT" | .DEDENT => "DEDENT"
  | .FENCE => "FENCE" | .EOF => "EOF"

/-- A body member: `ast.KV` or `ast.ListItem`. -/
inductive BodyItem where
  | kv (key : String) (value : Val) (lenses : List LensSpec) (pos : Pos)
  | li (value : Val) (itemIf : Option String) (lenses : List LensSpec) (pos : Pos)
deriving Repr

/-- The `isinstance(x, KV)` test. -/
def BodyItem.isKV : BodyItem → Bool
  | .kv _ _ _ _ => true
  | _ => false

/-- The `isinstance(x, ListItem)` test. -/
def BodyItem.isLI : BodyItem → Bool
  | .li _ _ _ _ => true
  | _ => false

/-- A facet: name, attribute dict, body, position (`ast.Facet`). -/
structure FacetNode where
  name : String
  attrs : List (String × Val)
  body : List BodyItem
  pos : Pos
deriving Repr

/-- Embedded `Parser.expect`: demand a token kind, `F001` otherwise. -/
def pExpect (kind : TokKind) (msg : String) : List Token → Except Err (Token × List Token)
  | [] => .error (errF "MODEL-IndexError" "token index out of range")
  | t :: rest =>
      if t.kind = kind then .ok (t, rest)
      else
        .error ⟨"F001",
          (if msg == "" then "Expected " ++ tokKindName kind ++ ", got " ++ tokKindName t.kind
           else msg), some t.pos⟩

/-- Embedded `Parser._num`: integers parse, malformed numbers are
`F101`; float lexemes (digits with `.`/`e`/`E`) are outside the model. -/
def pNum (s : String) (p : Pos) : Except Err Val :=
  if s.data.any (fun c => c == '.' || c == 'e' || c == 'E') then
    .error ⟨"MODEL-FLOAT", "float literals are outside the model", some p⟩
  else
    match pyParseInt s with
    | some n => .ok (.int n)
    | none => .error ⟨"F101", "Invalid number '" ++ s ++ "'", some p⟩

/-- Embedded `Parser.parse_attr_value`. -/
def parseAttrValue : List Token → Except Err (Val × List Token)
  | [] => .error (errF "MODEL-IndexError" "token index out of range")
  | t :: rest =>
      match t.kind with
      | .STRING => .ok (.str t.value, rest)
      | .NUMBER => do
          let v ← pNum t.value t.pos
          return (v, rest)
      | .BOOLEAN => .ok (.bool (t.value == "true"), rest)
      | .NULL => .ok (.null, rest)
      | .IDENT => .ok (.str t.value, rest)
      | _ => .error ⟨"F301", "Malformed attribute value", some t.pos⟩

/-- Loop of `Parser.parse_attrs`: attributes `IDENT = literal`
separated by commas, ended by a (not consumed) `)`.  A string value
that contains `{{` or starts with `$` is rejected with `F304`;
repeated keys overwrite (`attrs[key] = val`). -/
def parseAttrsLoop (fuel : Nat) (attrs : List (String × Val)) (first : Bool)
    (toks : List Token) : Except Err (List (String × Val) × List Token) :=
  match fuel with
  | 0 => .error (errF "MODEL-FUEL" "parser budget exhausted")
  | fuel + 1 =>
      match toks with
      | t :: _ =>
          if t.kind = .RPAREN then .ok (attrs, toks)
          else do
            let toks ←
              if first then .ok toks
              else do
                let (_, rest) ← pExpect .COMMA "Comma expected in attributes" toks
                pure rest
            let (key, toks) ← pExpect .IDENT "Attribute name expected" toks
            let (_, toks) ← pExpect .EQUAL "'=' expected after attribute name" toks
            let (val, toks) ← parseAttrValue toks
            match val with
            | .str s =>
                if strHasSub "\x7b\x7b" s || strStarts s "$" || strStarts s "$\x7b" then
                  .error (errF "F304" "Attribute interpolation prohibited")
                else parseAttrsLoop fuel (dictSet attrs key.value val) false toks
            | _ => parseAttrsLoop fuel (dictSet attrs key.value val) false toks
      | [] => .error (errF "MODEL-IndexError" "token index out of range")
  termination_by structural fuel

/-- Embedded `Parser.parse_attrs`. -/
def parseAttrs (toks : List Token) : Except Err (List (String × Val) × List Token) :=
  parseAttrsLoop (toks.length + 2) [] true toks

mutual

/-- Embedded `Parser.parse_value`: scalars, inline maps/lists, fences,
anchor wrappers `{&: name, value: V}` and aliases `{*: name}`. -/
def parseValue (fuel : Nat) (toks : List Token) : Except Err (Val × List Token) :=
  match fuel with
  | 0 => .error (errF "MODEL-FUEL" "parser budget exhausted")
  | fuel + 1 =>
      match toks with
      | [] => .error (errF "MODEL-IndexError" "token index out of range")
      | t :: rest =>
          match t.kind with
          | .AMP => do
              let (name, toks) ← pExpect .IDENT "Anchor name expected after '&'" rest
              let (val, toks) ← parseValue fuel toks
              return (.dict [("&", .str name.value), ("value", val)], toks)
          | .STAR => do
              let (name, toks) ← pExpect .IDENT "Alias name expected after '*'" rest
              return (.dict [("*", .str name.value)], toks)
          | .STRING => .ok (.str t.value, rest)
          | .NUMBER => do
              let v ← pNum t.value t.pos
              return (v, rest)
          | .BOOLEAN => .ok (.bool (t.value == "true"), rest)
          | .NULL => .ok (.null, rest)
          | .LBRACE => parseInlineMap fuel toks
          | .LBRACKET => parseInlineList fuel toks
          | .FENCE => .ok (.fence t.value, rest)
          | .IDENT => .ok (.str t.value, rest)
          | k => .error ⟨"F101", "Unexpected token " ++ tokKindName k ++ " in value", some t.pos⟩
  termination_by structural fuel

/-- Embedded `Parser.parse_inline_map` (including its `{` expect). -/
def parseInlineMap (fuel : Nat) (toks : List Token) : Except Err (Val × List Token) :=
  match fuel with
  | 0 => .error (errF "MODEL-FUEL" "parser budget exhausted")
  | fuel + 1 => do
      let (_, toks) ← pExpect .LBRACE "\x7b expected for inline map" toks
      parseInlineMapLoop fuel [] true toks
  termination_by structural fuel

/-- Loop of `parse_inline_map`; repeated keys overwrite (`m[key] = val`). -/
def parseInlineMapLoop (fuel : Nat) (m : List (String × Val)) (first : Bool)
    (toks : List Token) : Except Err (Val × List Token) :=
  match fuel with
  | 0 => .error (errF "MODEL-FUEL" "parser budget exhausted")
  | fuel + 1 =>
      match toks with
      | t :: rest =>
          if t.kind = .RBRACE then .ok (.dict m, rest)
          else do
            let toks ←
              if first then .ok toks
              else do
                let (_, r) ← pExpect .COMMA ", expected in inline map" toks
                pure r
            let (key, toks) ← pExpect .IDENT "Key expected in inline map" toks
            let (_, toks) ← pExpect .COLON ": expected after key in inline map" toks
            let (val, toks) ← parseValue fuel toks
            parseInlineMapLoop fuel (dictSet m key.value val) false toks
      | [] => .error (errF "MODEL-IndexError" "token index out of range")
  termination_by structural fuel

/-- Embedded `Parser.parse_inline_list` (including its `[` expect). -/
def parseInlineList (fuel : Nat) (toks : List Token) : Except Err (Val × List Token) :=
  match fuel with
  | 0 => .error (errF "MODEL-FUEL" "parser budget exhausted")
  | fuel + 1 => do
      let (_, toks) ← pExpect .LBRACKET "[ expected for inline list" toks
      parseInlineListLoop fuel [] true toks
  termination_by structural fuel

/-- Loop of `parse_inline_list`. -/
def parseInlineListLoop (fuel : Nat) (acc : List Val) (first : Bool)
    (toks : List Token) : Except Err (Val × List Token) :=
  match fuel with
  | 0 => .error (errF "MODEL-FUEL" "parser budget exhausted")
  | fuel + 1 =>
      match toks with
      | t :: rest =>
          if t.kind = .RBRACKET then .ok (.list acc.reverse, rest)
          else do
            let toks ←
              if first then .ok toks
              else do
                let (_, r) ← pExpect .COMMA ", expected in inline list" toks
                pure r
            let (val, toks) ← parseValue fuel toks
            parseInlineListLoop fuel (val :: acc) false toks
      | [] => .error (errF "MODEL-IndexError" "token index out of range")
  termination_by structural fuel

end

/-- One lens-argument step of `parse_lenses` (inside the parentheses). -/
def parseLensArg (toks : List Token) :
    Except Err ((Option (String × Val)) × (Option Val) × List Token) :=
  match toks with
  | t :: t2 :: rest =>
      if t.kind = .IDENT && t2.kind = .EQUAL then
        match rest with
        | v :: rest' =>
            match v.kind with
            | .STRING => .ok (some (t.value, .str v.value), none, rest')
            | .NUMBER => do
                let n ← pNum v.value v.pos
                return (some (t.value, n), none, rest')
            | .BOOLEAN => .ok (some (t.value, .bool (v.value == "true")), none, rest')
            | .NULL => .ok (some (t.value, .null), none, rest')
            | _ => .error ⟨"F101", "Invalid lens kwarg value", some v.pos⟩
        | [] => .error (errF "MODEL-IndexError" "token index out of range")
      else
        match t.kind with
        | .STRING => .ok (none, some (.str t.value), t2 :: rest)
        | .NUMBER => do
            let n ← pNum t.value t.pos
            return (none, some n, t2 :: rest)
        | .BOOLEAN => .ok (none, some (.bool (t.value == "true")), t2 :: rest)
        | .NULL => .ok (none, some .null, t2 :: rest)
        | .IDENT => .ok (none, some (.str t.value), t2 :: rest)
        | _ => .error ⟨"F101", "Invalid lens argument", some t.pos⟩
  | _ => .error (errF "MODEL-IndexError" "token index out of range")

/-- Argument-list loop of `parse_lenses`. -/
def parseLensArgsLoop (fuel : Nat) (args : List Val) (kwargs : List (String × Val))
    (first : Bool) (toks : List Token) :
    Except Err (List Val × List (String × Val) × List Token) :=
  match fuel with
  | 0 => .error (errF "MODEL-FUEL" "parser budget exhausted")
  | fuel + 1 =>
      match toks with
      | t :: rest =>
          if t.kind = .RPAREN then .ok (args.reverse, kwargs, rest)
          else do
            let toks ←
              if first then .ok toks
              else do
                let (_, r) ← pExpect .COMMA ", expected in lens args" toks
                pure r
            let (kw, arg, toks) ← parseLensArg toks
            match kw, arg with
            | some (k, v), _ => parseLensArgsLoop fuel args (dictSet kwargs k v) false toks
            | _, some v => parseLensArgsLoop fuel (v :: args) kwargs false toks
            | none, none => .error (errF "MODEL-UNREACHABLE" "lens argument step")
      | [] => .error (errF "MODEL-IndexError" "token index out of range")
  termination_by structural fuel

/-- Embedded `Parser.parse_lenses`: a chain of `|> name(args…)`. -/
def parseLenses (fuel : Nat) (acc : List LensSpec) (toks : List Token) :
    Except Err (List LensSpec × List Token) :=
  match fuel with
  | 0 => .error (errF "MODEL-FUEL" "parser budget exhausted")
  | fuel + 1 =>
      match toks with
      | t :: rest =>
          if t.kind = .PIPE then do
            let (name, toks) ← pExpect .IDENT "Lens name expected after '|>'" rest
            match toks with
            | l :: lrest =>
                if l.kind = .LPAREN then do
                  let (args, kwargs, toks) ← parseLensArgsLoop (lrest.length + 2) [] [] true lrest
                  parseLenses fuel (acc ++ [(name.value, args, kwargs)]) toks
                else parseLenses fuel (acc ++ [(name.value, [], [])]) toks
            | [] => parseLenses fuel (acc ++ [(name.value, [], [])]) toks
          else .ok (acc, toks)
      | [] => .ok (acc, toks)
  termination_by structural fuel

/-- Embedded `Parser._collapse_block`: an all-list-items block becomes
the raw list of `ListItem` objects; otherwise a dict of the KV entries,
with `F101` on a mixed block.  An empty block is an empty dict. -/
def collapseBlock (items : List BodyItem) : Except Err Val :=
  if items.isEmpty then .ok (.dict [])
  else if items.all BodyItem.isLI then
    .ok (.list (items.map fun it =>
      match it with
      | .li v i l p => .item v i l p
      | .kv k v l p => .item (.str k) none [] p))
  else
    let rec fold (acc : List (String × Val)) : List BodyItem → Except Err Val
      | [] => .ok (.dict acc)
      | .kv k v _ _ :: rest => fold (dictSet acc k v) rest
      | .li _ _ _ _ :: _ =>
          .error (errF "F101" "Mixed list and map items in the same block are not allowed")
    fold [] items

mutual

/-- Embedded `Parser.parse_block` loop: entries until a DEDENT, or an
implicit end at a facet/EOF after a blank line. -/
def parseBlock (fuel : Nat) (acc : List BodyItem) (toks : List Token) :
    Except Err (List BodyItem × List Token) :=
  match fuel with
  | 0 => .error (errF "MODEL-FUEL" "parser budget exhausted")
  | fuel + 1 =>
      match toks with
      | [] => .error (errF "MODEL-IndexError" "token index out of range")
      | t :: rest =>
          if t.kind = .DEDENT then .ok (acc, rest)
          else if t.kind = .NEWLINE then
            match rest with
            | t2 :: _ =>
                if t2.kind = .AT || t2.kind = .EOF then .ok (acc, rest)
                else parseBlock fuel acc rest
            | [] => .error (errF "MODEL-IndexError" "token index out of range")
          else if t.kind = .DASH then do
            let (it, toks) ← parseEntryAfterDash fuel rest
            parseBlock fuel (acc ++ [it]) toks
          else do
            let (it, toks) ← parseKVEntry fuel toks
            parseBlock fuel (acc ++ [it]) toks
  termination_by structural fuel

/-- Embedded `Parser.parse_block_same_level` loop: like `parse_block`
but ends (without consuming) at the next facet or EOF and swallows
stray DEDENTs. -/
def parseBlockSame (fuel : Nat) (acc : List BodyItem) (toks : List Token) :
    Except Err (List BodyItem × List Token) :=
  match fuel with
  | 0 => .error (errF "MODEL-FUEL" "parser budget exhausted")
  | fuel + 1 =>
      match toks with
      | [] => .error (errF "MODEL-IndexError" "token index out of range")
      | t :: rest =>
          if t.kind = .AT || t.kind = .EOF then .ok (acc, toks)
          else if t.kind = .DEDENT then parseBlockSame fuel acc rest
          else if t.kind = .NEWLINE then
            match rest with
            | t2 :: _ =>
                if t2.kind = .AT || t2.kind = .EOF then .ok (acc, rest)
                else parseBlockSame fuel acc rest
            | [] => .error (errF "MODEL-IndexError" "token index out of range")
          else if t.kind = .DASH then do
            let (it, toks) ← parseEntryAfterDash fuel rest
            parseBlockSame fuel (acc ++ [it]) toks
          else do
            let (it, toks) ← parseKVEntry fuel toks
            parseBlockSame fuel (acc ++ [it]) toks
  termination_by structural fuel

/-- Shared list-item tail (after the `-`): value, optional
`(if="…")` restricted to `if`, lens chain, newline-or-block-end.  The
recorded position is the source's quirk `self.cur().pos` — the position
of the *next* token after the entry. -/
def parseEntryAfterDash (fuel : Nat) (toks : List Token) : Except Err (BodyItem × List Token) :=
  match fuel with
  | 0 => .error (errF "MODEL-FUEL" "parser budget exhausted")
  | fuel + 1 => do
      let (val, toks) ← parseValue fuel toks
      let (itemIf, toks) ←
        match toks with
        | t :: rest =>
            if t.kind = .LPAREN then do
              let (ident, toks) ← pExpect .IDENT "Only 'if' attribute is allowed on list items" rest
              if ident.value ≠ "if" then
                .error ⟨"F305", "Unsupported list-item attribute (only 'if' allowed)", some ident.pos⟩
              else do
                let (_, toks) ← pExpect .EQUAL "'=' expected after 'if'" toks
                let (expr, toks) ←
                  pExpect .STRING "Quoted expression required in (if=\"...\")" toks
                let (_, toks) ← pExpect .RPAREN ") expected after list-item if" toks
                pure (some expr.value, toks)
            else pure (none, toks)
        | [] => .error (errF "MODEL-IndexError" "token index out of range")
      let (lenses, toks) ← parseLenses fuel [] toks
      let toks ←
        match toks with
        | t :: _ =>
            if t.kind = .EOF || t.kind = .DEDENT || t.kind = .AT then .ok toks
            else do
              let (_, rest) ← pExpect .NEWLINE "Expected newline after list item" toks
              pure rest
        | [] => .error (errF "MODEL-IndexError" "token index out of range")
      let nextPos := match toks with | t :: _ => t.pos | [] => ⟨0, 0⟩
      return (.li val itemIf lenses nextPos, toks)
  termination_by structural fuel

/-- Shared KV-entry branch: `IDENT : value` inline, or
`IDENT :` NEWLINE INDENT then a fence or a nested block collapsed to a
map/list. -/
def parseKVEntry (fuel : Nat) (toks : List Token) : Except Err (BodyItem × List Token) :=
  match fuel with
  | 0 => .error (errF "MODEL-FUEL" "parser budget exhausted")
  | fuel + 1 => do
      let (key, toks) ← pExpect .IDENT "Key expected" toks
      let (_, toks) ← pExpect .COLON ": expected after key" toks
      match toks with
      | t :: rest =>
          if t.kind = .NEWLINE then
            match rest with
            | t2 :: rest2 =>
                if t2.kind = .INDENT then
                  match rest2 with
                  | t3 :: _ =>
                      if t3.kind = .FENCE then do
                        let (fenceVal, toks) ← parseValue fuel rest2
                        let (lenses, toks) ← parseLenses fuel [] toks
                        let toks :=
                          match toks with
                          | n :: r => if n.kind = TokKind.NEWLINE then r else toks
                          | [] => toks
                        let toks :=
                          match toks with
                          | n :: r => if n.kind = TokKind.DEDENT then r else toks
                          | [] => toks
                        return (.kv key.value fenceVal lenses key.pos, toks)
                      else do
                        let (nested, toks) ← parseBlock fuel [] rest2
                        let collapsed ← collapseBlock nested
                        return (.kv key.value collapsed [] key.pos, toks)
                  | [] => .error (errF "MODEL-IndexError" "token index out of range")
                else
                  .error ⟨"F001", "Expected indented content after key:", some t2.pos⟩
            | [] => .error (errF "MODEL-IndexError" "token index out of range")
          else do
            let (val, toks) ← parseValue fuel toks
            let (lenses, toks) ← parseLenses fuel [] toks
            let toks ←
              match toks with
              | n :: _ =>
                  if n.kind = .EOF || n.kind = .DEDENT || n.kind = .AT then .ok toks
                  else do
                    let (_, rest') ← pExpect .NEWLINE "Expected newline after value" toks
                    pure rest'
              | [] => .error (errF "MODEL-IndexError" "token index out of range")
            return (.kv key.value val lenses key.pos, toks)
      | [] => .error (errF "MODEL-IndexError" "token index out of range")
  termination_by structural fuel

end

/-- Embedded `Parser.parse_facet`: facet name, `@import` special case,
optional `&anchor` (recorded as attribute key `&`), optional attribute
list, then an indented or same-level body. -/
def parseFacet (fuel : Nat) (toks : List Token) : Except Err (FacetNode × List Token) := do
  let (nameTok, toks) ← pExpect .IDENT "Facet name expected" toks
  if nameTok.value == "import" then do
    let (attrs, toks) ←
      match toks with
      | t :: rest =>
          if t.kind = .LPAREN then do
            let (attrs, toks) ← parseAttrs rest
            let (_, toks) ← pExpect .RPAREN ") expected after attributes" toks
            pure (attrs, toks)
          else if t.kind = .STRING then
            pure ([("path", Val.str t.value)], rest)
          else pure ([], toks)
      | [] => pure (([] : List (String × Val)), toks)
    let (_, toks) ← pExpect .NEWLINE "Newline required after @import" toks
    return (⟨nameTok.value, attrs, [], nameTok.pos⟩, toks)
  else do
    let (anchor, toks) ←
      match toks with
      | t :: rest =>
          if t.kind = .AMP then do
            let (anchorTok, toks) ← pExpect .IDENT "Anchor name expected after '&'" rest
            pure (some anchorTok.value, toks)
          else pure (none, toks)
      | [] => pure (none, toks)
    let (attrs, toks) ←
      match toks with
      | t :: rest =>
          if t.kind = .LPAREN then do
            let (attrs, toks) ← parseAttrs rest
            let (_, toks) ← pExpect .RPAREN ") expected after attributes" toks
            pure (attrs, toks)
          else pure (([] : List (String × Val)), toks)
      | [] => pure (([] : List (String × Val)), toks)
    let (_, toks) ← pExpect .NEWLINE "Newline required after facet header" toks
    let (body, toks) ←
      match toks with
      | t :: rest =>
          if t.kind = .INDENT then parseBlock fuel [] rest
          else if t.kind = .IDENT || t.kind = .NEWLINE || t.kind = .DEDENT then
            parseBlockSame fuel [] toks
          else
            .error ⟨"F001", "Expected indented block or content after facet header", some t.pos⟩
      | [] => .error (errF "MODEL-IndexError" "token index out of range")
    let attrs := match anchor with
      | some a => dictSet attrs "&" (.str a)
      | none => attrs
    return (⟨nameTok.value, attrs, body, nameTok.pos⟩, toks)

/-- Top-level loop of `Parser.parse`: facets separated by newlines and
stray DEDENTs, until EOF. -/
def parseDocLoop (fuel : Nat) (acc : List FacetNode) (toks : List Token) :
    Except Err (List FacetNode) :=
  match fuel with
  | 0 => .error (errF "MODEL-FUEL" "parser budget exhausted")
  | fuel + 1 =>
      match toks with
      | [] => .error (errF "MODEL-IndexError" "token index out of range")
      | t :: rest =>
          if t.kind = .EOF then .ok acc
          else if t.kind = .NEWLINE then parseDocLoop fuel acc rest
          else if t.kind = .DEDENT then parseDocLoop fuel acc rest
          else if t.kind = .AT then do
            let (f, toks) ← parseFacet fuel rest
            parseDocLoop fuel (acc ++ [f]) toks
          else .error ⟨"F001", "Expected '@' to start a facet", some t.pos⟩
  termination_by structural fuel

/-- Embedded `parse`: the loop with a budget linear in the token count
(each loop iteration and nesting level consumes at least one token, so
the budget is unreachable). -/
def parse (toks : List Token) : Except Err (List FacetNode) :=
  parseDocLoop (10 * toks.length + 16) [] toks

/-! ### Interpolator (`interpolator.py`) -/

/-- Embedded `interpolator._get_path`: dotted-path lookup through
nested mappings, `F402A` on a missing component. -/
def interpGetPath (env : List (String × Val)) (path : String) : Except Err Val :=
  let rec walk (cur : Val) : List String → Except Err Val
    | [] => .ok cur
    | p :: rest =>
        match cur with
        | .dict es =>
            match dictGet? p es with
            | some v => walk v rest
            | none =>
                .error (errF "F402A"
                  ("Undefined template variable '\x7b\x7b" ++ path ++ "\x7d\x7d'"))
        | _ =>
            .error (errF "F402A"
              ("Undefined template variable '\x7b\x7b" ++ path ++ "\x7d\x7d'"))
  walk (.dict env) (splitDots path)

/-- Index of the first occurrence of `pat` in `cs` (`str.find`). -/
def findSubFrom (pat : List Char) (cs : List Char) : Option Nat :=
  match cs with
  | [] => if pat.isEmpty then some 0 else none
  | _ :: rest =>
      if pat.isPrefixOf cs then some 0
      else (findSubFrom pat rest).map (· + 1)

/-- Embedded `interpolate_string` scan: `\{{`/`\}}` escapes, `{{…}}`
references resolved through the environment (strings verbatim,
other values via default-separator `json.dumps`). -/
def interpolateChars (fuel : Nat) (env : List (String × Val)) (cs : List Char) :
    Except Err (List Char) :=
  match fuel with
  | 0 => .error (errF "MODEL-FUEL" "interpolation budget exhausted")
  | fuel + 1 =>
      match cs with
      | [] => .ok []
      | c :: rest =>
          if ['\\', '\x7b', '\x7b'].isPrefixOf cs then do
            let tl ← interpolateChars fuel env (cs.drop 3)
            return '\x7b' :: '\x7b' :: tl
          else if ['\\', '\x7d', '\x7d'].isPrefixOf cs then do
            let tl ← interpolateChars fuel env (cs.drop 3)
            return '\x7d' :: '\x7d' :: tl
          else if ['\x7b', '\x7b'].isPrefixOf cs then
            let after := cs.drop 2
            match findSubFrom ['\x7d', '\x7d'] after with
            | none => .error (errF "F402B" "Unclosed template_ref in string")
            | some j =>
                let key : String := ⟨pyStripChars (after.take j)⟩
                if key.data.isEmpty then .error (errF "F402B" "Empty template_ref")
                else do
                  let val ← interpGetPath env key
                  let rendered ←
                    match val with
                    | .str s => .ok s.data
                    | v => do
                        let s ← defaultJson v
                        pure s.data
                  let tl ← interpolateChars fuel env (after.drop (j + 2))
                  return rendered ++ tl
          else do
            let tl ← interpolateChars fuel env rest
            return c :: tl
  termination_by structural fuel

/-- Embedded `interpolate_string`. -/
def interpolateString (text : String) (env : List (String × Val)) : Except Err String := do
  let out ← interpolateChars (text.data.length + 1) env text.data
  return ⟨out⟩

/-- Embedded `substitute_scalar`: `$name` / `${dotted.path}` whole-value
substitution on strings, everything else unchanged. -/
def substituteScalar (v : Val) (env : List (String × Val)) : Except Err Val :=
  match v with
  | .str s =>
      if strStarts s "$\x7b" && strEnds s "\x7d" then
        interpGetPath env ⟨pyStripChars ((s.data.drop 2).dropLast)⟩
      else if strStarts s "$" && strLen s > 1 then
        interpGetPath env (strDrop s 1)
      else .ok v
  | _ => .ok v

/-! ### Lens dispatch (`lenses.BUILTINS` / `apply_pipeline`)

Python binds `fn(out, *args, **kwargs)`; a generic binder models
positional-or-keyword binding with `MODEL-TypeError` for any binding
Python would reject. -/

/-- Bind call arguments to the named parameters after the value
parameter (positional first, then keywords; duplicates, gaps and
extras are `TypeError`s). -/
def bindParams (params : List String) (args : List Val) (kwargs : List (String × Val)) :
    Except Err (List Val) :=
  if args.length > params.length then
    .error (errF "MODEL-TypeError" "too many positional arguments")
  else if kwargs.any (fun kv => !params.contains kv.1) then
    .error (errF "MODEL-TypeError" "unexpected keyword argument")
  else
    let rec fill (ps : List String) (idx : Nat) : Except Err (List Val) :=
      match ps with
      | [] => .ok []
      | p :: rest =>
          if h : idx < args.length then
            if dictMem p kwargs then
              .error (errF "MODEL-TypeError" "multiple values for argument")
            else do
              let tl ← fill rest (idx + 1)
              return args.get ⟨idx, h⟩ :: tl
          else
            match dictGet? p kwargs with
            | some v => do
                let tl ← fill rest (idx + 1)
                return v :: tl
            | none => .error (errF "MODEL-TypeError" "missing required argument")
    fill params 0

/-- Embedded lens dispatch for one `BUILTINS` entry: the source calls
`fn(out, *call.args, **call.kwargs)`. -/
def applyLens (ext : Ext) (name : String) (args : List Val) (kwargs : List (String × Val))
    (x : Val) : Except Err Val :=
  if name == "trim" then do
    let _ ← bindParams [] args kwargs
    return trim x
  else if name == "dedent" then do
    let _ ← bindParams [] args kwargs
    dedent x
  else if name == "squeeze_spaces" then do
    let _ ← bindParams [] args kwargs
    squeeze_spaces x
  else if name == "limit" then do
    let bound ← bindParams ["n"] args kwargs
    match bound with
    | [.int n] => limit x n
    | _ => .error (errF "MODEL-TypeError" "limit expects an int bound")
  else if name == "lower" then do
    let _ ← bindParams [] args kwargs
    lower x
  else if name == "upper" then do
    let _ ← bindParams [] args kwargs
    upper x
  else if name == "replace" then do
    let bound ← bindParams ["old", "new"] args kwargs
    match bound with
    | [.str o, .str n] => replace x o n
    | _ => .error (errF "MODEL-TypeError" "replace expects strings")
  else if name == "regex_replace" then do
    let bound ← bindParams ["pattern", "repl"] args kwargs
    match bound with
    | [.str p, .str r] => regex_replace ext x p r
    | _ => .error (errF "MODEL-TypeError" "regex_replace expects strings")
  else if name == "choose" then
    if !args.isEmpty then .error (errF "MODEL-TypeError" "choose takes no positional arguments")
    else if kwargs.any (fun kv => kv.1 ≠ "seed") then
      .error (errF "MODEL-TypeError" "unexpected keyword argument")
    else choose x (dictGet? "seed" kwargs)
  else if name == "shuffle" then
    if !args.isEmpty then .error (errF "MODEL-TypeError" "shuffle takes no positional arguments")
    else if kwargs.any (fun kv => kv.1 ≠ "seed") then
      .error (errF "MODEL-TypeError" "unexpected keyword argument")
    else shuffle ext x (dictGet? "seed" kwargs)
  else .error (errF "F802" ("Unknown custom/builtin lens '" ++ name ++ "'"))

/-- Embedded `apply_pipeline`: left-to-right fold over the chain. -/
def applyPipeline (ext : Ext) (v : Val) : List LensSpec → Except Err Val
  | [] => .ok v
  | (name, args, kwargs) :: rest => do
      let v' ← applyLens ext name args kwargs v
      applyPipeline ext v' rest

/-! ### Variable typing (`typing_vars.py`) -/

/-- Embedded `_typeof`. -/
def typeofVal : Val → String
  | .str _ => "string"
  | .bool _ => "bool"
  | .int _ => "int"
  | .list _ => "array"
  | .dict _ => "object"
  | _ => "object"

/-- Allowed declared types. -/
def allowedTypes : List String := ["string", "int", "float", "bool", "array", "object"]

/-- Walk a dotted path through nested dicts, `F451` when absent. -/
def varsPathLookup (varsMap : List (String × Val)) (path : String) : Except Err Val :=
  let rec walk (cur : Val) : List String → Except Err Val
    | [] => .ok cur
    | p :: rest =>
        match cur with
        | .dict es =>
            match dictGet? p es with
            | some v => walk v rest
            | none => .error (errF "F451" ("Path '" ++ path ++ "' not found in @vars for typing"))
        | _ => .error (errF "F451" ("Path '" ++ path ++ "' not found in @vars for typing"))
  walk (.dict varsMap) (splitDots path)

/-- Embedded constraint checks of `validate_var_types` for one spec. -/
def checkVarSpec (ext : Ext) (varsMap : List (String × Val)) (path : String) (spec : Val) :
    Except Err Unit := do
  let sm ←
    match spec with
    | .dict sm => .ok sm
    | _ => .error (errF "MODEL-AttributeError" "type spec is not a mapping")
  let tOk :=
    match dictGet? "type" sm with
    | some (.str ts) => if allowedTypes.contains ts then some ts else none
    | _ => none
  match tOk with
  | none => .error (errF "F451" ("Unknown type for '" ++ path ++ "'"))
  | some t => do
      let cur ← varsPathLookup varsMap path
      let actual := typeofVal cur
      if t == "int" && actual == "float" then
        .error (errF "F451" ("Type mismatch for '" ++ path ++ "'"))
      else if t ≠ actual && !(t == "float" && actual == "int") then
        .error (errF "F451" ("Type mismatch for '" ++ path ++ "'"))
      else do
        let _ ←
          match dictGet? "enum" sm with
          | some (.list items) =>
              if items.any (Val.beq cur) then .ok ()
              else .error (errF "F452" ("Enum violation for '" ++ path ++ "'"))
          | some _ => .error (errF "MODEL-TypeError" "enum spec is not a list")
          | none => .ok ()
        let _ ←
          if t == "int" || t == "float" then do
            let _ ←
              match dictGet? "min" sm, cur with
              | some (.int m), .int c =>
                  if c < m then .error (errF "F452" ("min violation for '" ++ path ++ "'"))
                  else .ok ()
              | some _, _ => .error (errF "MODEL-TypeError" "min bound is not an int")
              | none, _ => .ok ()
            match dictGet? "max" sm, cur with
            | some (.int m), .int c =>
                if c > m then .error (errF "F452" ("max violation for '" ++ path ++ "'"))
                else .ok ()
            | some _, _ => .error (errF "MODEL-TypeError" "max bound is not an int")
            | none, _ => .ok ()
          else .ok ()
        if t == "string" then
          match dictGet? "pattern" sm, cur with
          | some (.str pat), .str c =>
              if ext.reFullmatch pat (if c == "" then "" else c) then .ok ()
              else .error (errF "F452" ("pattern violation for '" ++ path ++ "'"))
          | some _, _ => .error (errF "MODEL-TypeError" "pattern is not a string")
          | none, _ => .ok ()
        else .ok ()

/-- Embedded `validate_var_types`: check every spec in order. -/
def validateVarTypes (ext : Ext) (varsMap : List (String × Val))
    (specs : List (String × Val)) : Except Err Unit :=
  match specs with
  | [] => .ok ()
  | (path, spec) :: rest => do
      checkVarSpec ext varsMap path spec
      validateVarTypes ext varsMap rest

/-! ### Import merge (`imports._merge_facets`) -/

/-- First index in `out` of a facet named `name` (`next(...)`). -/
def facetIndex (out : List FacetNode) (name : String) : Option Nat :=
  let rec go (i : Nat) : List FacetNode → Option Nat
    | [] => none
    | f :: rest => if f.name == name then some i else go (i + 1) rest
  go 0 out

/-- Merge KV bodies: first-appearance order, last occurrence wins
(the `seen` dict of the source). -/
def mergeKVBodies (items : List BodyItem) : List BodyItem :=
  let rec upsert (acc : List BodyItem) (k : String) (it : BodyItem) : List BodyItem :=
    match acc with
    | [] => [it]
    | a :: rest =>
        match a with
        | .kv k' _ _ _ => if k == k' then it :: rest else a :: upsert rest k it
        | other => other :: upsert rest k it
  items.foldl (fun acc it =>
    match it with
    | .kv k _ _ _ => upsert acc k it
    | _ => acc) []

/-- Embedded `_merge_facets`: merge an expanded import into the host
facet list by facet name; `merge` deep-merges attrs (imported wins),
concatenates all-list bodies, keeps first-appearance/last-wins KV
bodies, and falls back to replace (or `F606` in strict mode) on a body
shape mismatch. -/
def mergeFacets (dst src : List FacetNode) (strategy : String) (strict : Bool) :
    Except Err (List FacetNode) :=
  let step := fun (out : Except Err (List FacetNode)) (f : FacetNode) => do
    let out ← out
    match facetIndex out f.name with
    | none => .ok (out ++ [f])
    | some idx =>
        if strategy == "replace" then .ok (out.set idx f)
        else
          match out.get? idx with
          | none => .error (errF "MODEL-IndexError" "facet index out of range")
          | some a =>
              let attrs := dictUpdate a.attrs f.attrs
              if a.body.all BodyItem.isKV && f.body.all BodyItem.isKV then
                .ok (out.set idx { a with attrs, body := mergeKVBodies (a.body ++ f.body) })
              else if a.body.all BodyItem.isLI && f.body.all BodyItem.isLI then
                .ok (out.set idx { a with attrs, body := a.body ++ f.body })
              else if strict then
                .error (errF "F606" "Import merge type mismatch in strict mode")
              else .ok (out.set idx f)
  src.foldl step (.ok dst)

/-! ### Canonizer (`canon.py`) -/

/-- Embedded `canon._path_exists`. -/
def pathExists (env : List (String × Val)) (path : String) : Bool :=
  let rec walk (cur : Val) : List String → Bool
    | [] => true
    | p :: rest =>
        match cur with
        | .dict es =>
            match dictGet? p es with
            | some v => walk v rest
            | none => false
        | _ => false
  walk (.dict env) (splitDots path)

/-- Embedded `canon._get_path` (only called after `_path_exists`; a
missing component would be a `KeyError` in the source). -/
def getPath (env : List (String × Val)) (path : String) : Except Err Val :=
  let rec walk (cur : Val) : List String → Except Err Val
    | [] => .ok cur
    | p :: rest =>
        match cur with
        | .dict es =>
            match dictGet? p es with
            | some v => walk v rest
            | none => .error (errF "MODEL-KeyError" p)
        | _ => .error (errF "MODEL-KeyError" p)
  walk (.dict env) (splitDots path)

/-- One match attempt of the `@vars` reference scanner
`\{\{\s*([a-zA-Z_][\w\.]+)\s*\}\}` at the head of `cs`: the group and
the rest after the match.  The character classes are disjoint from `}`
and whitespace, so the greedy scan needs no backtracking.  (`\w` is
Unicode in Python; ASCII here, as elsewhere.) -/
def refMatchAt (cs : List Char) : Option (String × List Char) :=
  match cs with
  | '\x7b' :: '\x7b' :: after => do
      let after := after.dropWhile isPySpace
      match after with
      | c0 :: after1 =>
          if isIdentStart c0 then
            let body := after1.takeWhile fun c => c.isAlphanum || c == '_' || c == '.'
            if body.isEmpty then none
            else
              let after2 := (after1.drop body.length).dropWhile isPySpace
              match after2 with
              | '\x7d' :: '\x7d' :: rest => some (⟨c0 :: body⟩, rest)
              | _ => none
          else none
      | [] => none
  | _ => none

/-- Embedded `re.finditer` scan for `@vars` references: all
non-overlapping matches, left to right. -/
def findRefs (fuel : Nat) (cs : List Char) : List String :=
  match fuel with
  | 0 => []
  | fuel + 1 =>
      match cs with
      | [] => []
      | _ :: rest =>
          match refMatchAt cs with
          | some (ref, after) => ref :: findRefs fuel after
          | none => findRefs fuel rest
  termination_by structural fuel

mutual

/-- Embedded `_resolve_value_topdown`: inside `@vars`, fences are taken
verbatim, `$name` / `${path}` resolve against the entries so far
(`F404` when absent), strings containing `{{` are pre-checked for
scanner-visible references (`F404` when absent) and then interpolated,
and containers recurse. -/
def resolveValueTopdown (value : Val) (env : List (String × Val)) : Except Err Val :=
  match value with
  | .fence t => .ok (.str t)
  | .str s =>
      if strStarts s "$\x7b" && strEnds s "\x7d" then
        let path : String := ⟨pyStripChars ((s.data.drop 2).dropLast)⟩
        if !pathExists env path then
          .error (errF "F404" ("Variable forward reference '" ++ path ++ "'"))
        else getPath env path
      else if strStarts s "$" && strLen s > 1 then
        let name := strDrop s 1
        if !pathExists env name then
          .error (errF "F404" ("Variable forward reference '" ++ name ++ "'"))
        else getPath env name
      else if strHasSub "\x7b\x7b" s then
        match (findRefs (s.data.length + 1) s.data).find? (fun r => !pathExists env r) with
        | some ref => .error (errF "F404" ("Variable forward reference '" ++ ref ++ "'"))
        | none => do
            let r ← interpolateString s env
            return .str r
      else .ok value
  | .list items => do
      let items' ← resolveTopdownList items env
      return .list items'
  | .dict es => do
      let es' ← resolveTopdownEntries es env
      return .dict es'
  | other => .ok other

/-- Top-down resolution over list elements. -/
def resolveTopdownList (items : List Val) (env : List (String × Val)) :
    Except Err (List Val) :=
  match items with
  | [] => .ok []
  | v :: rest => do
      let v' ← resolveValueTopdown v env
      let rest' ← resolveTopdownList rest env
      return v' :: rest'

/-- Top-down resolution over dict entries. -/
def resolveTopdownEntries (es : List (String × Val)) (env : List (String × Val)) :
    Except Err (List (String × Val)) :=
  match es with
  | [] => .ok []
  | (k, v) :: rest => do
      let v' ← resolveValueTopdown v env
      let rest' ← resolveTopdownEntries rest env
      return (k, v') :: rest'

end

/-- The `isinstance(x, ListItem)` test on values. -/
def Val.isItem : Val → Bool
  | .item _ _ _ _ => true
  | _ => false

/-- Process one list item of a facet body (the per-item block of
`canonize`): `if` gating, fence passthrough, scalar substitution and
string interpolation, then the lens pipeline (`F803` when the chain
exceeds the cap).  `none` means the item was gated out. -/
def processListItem (ext : Ext) (env : List (String × Val)) (value : Val)
    (itemIf : Option String) (lenses : List LensSpec) : Except Err (Option Val) := do
  let keep ←
    match itemIf with
    | some cond => evalIf cond env
    | none => .ok true
  if !keep then return none
  else do
    let v ←
      match value with
      | .fence t => .ok (.str t)
      | _ => do
          let v ← substituteScalar value env
          match v with
          | .str s => do
              let s' ← interpolateString s env
              pure (.str s')
          | other => pure other
    let v ←
      if !lenses.isEmpty then
        if lenses.length > MAX_LENS_CHAIN then
          .error (errF "F803" "Lens chain too long")
        else applyPipeline ext v lenses
      else .ok v
    return some v

/-- Process the `lst` branch over item objects. -/
def processItems (ext : Ext) (env : List (String × Val)) : List Val → Except Err (List Val)
  | [] => .ok []
  | v :: rest => do
      let processed ←
        match v with
        | .item value itemIf lenses _ => processListItem ext env value itemIf lenses
        | other => processListItem ext env other none []
      let tl ← processItems ext env rest
      match processed with
      | some pv => return pv :: tl
      | none => return tl

/-- The facet `if`-attribute decision of `canonize` (lines 74-79):
absent keeps the facet, a non-string raises `F704`, the empty string
keeps the facet without consulting the expression engine, anything
else evaluates. -/
def facetIfDecision (f : FacetNode) (env : List (String × Val)) : Except Err Bool :=
  match dictGet? "if" f.attrs with
  | none => .ok true
  | some (.str s) => if s == "" then .ok true else evalIf s env
  | some _ => .error (errF "F704" "If expression must be quoted")

/-- Process one KV entry of a map-shaped facet body. -/
def processKVValue (ext : Ext) (env : List (String × Val)) (value : Val)
    (lenses : List LensSpec) : Except Err Val := do
  let val ←
    match value with
    | .list xs =>
        if xs.all Val.isItem then do
          let lst ← processItems ext env xs
          pure (.list lst)
        else do
          let v ← substituteScalar (.list xs) env
          pure v
    | .fence t => .ok (.str t)
    | other => do
        let v ← substituteScalar other env
        match v with
        | .str s => do
            let s' ← interpolateString s env
            pure (.str s')
        | o => pure o
  if !lenses.isEmpty then
    if lenses.length > MAX_LENS_CHAIN then
      .error (errF "F803" "Lens chain too long")
    else applyPipeline ext val lenses
  else .ok val

/-- Build the output entry for one normal facet (the per-facet body of
`canonize`'s main loop), given the already-filtered facet. -/
def canonizeFacetBody (ext : Ext) (env : List (String × Val)) (f : FacetNode) :
    Except Err Val := do
  let isList := f.body.all BodyItem.isLI && !f.body.isEmpty
  if isList then do
    let arr ← processItems ext env (f.body.map fun it =>
      match it with
      | .li v i l p => .item v i l p
      | .kv k v l p => .item v none l p)
    let obj : List (String × Val) :=
      if !f.attrs.isEmpty then [("_attrs", .dict f.attrs)] else []
    let obj := dictSet obj "items" (.list arr)
    if !f.attrs.isEmpty && dictMem "&" f.attrs then
      match dictGet? "&" f.attrs with
      | some anchorName => return .dict [("&", anchorName), ("value", .dict obj)]
      | none => return .dict obj
    else return .dict obj
  else do
    let bodyObj : List (String × Val) :=
      if !f.attrs.isEmpty then [("_attrs", .dict f.attrs)] else []
    let bodyObj ← f.body.foldlM (fun acc it =>
      match it with
      | .kv key value lenses _ => do
          let val ← processKVValue ext env value lenses
          pure (dictSet acc key val)
      | .li _ _ _ _ => pure acc) bodyObj
    if !f.attrs.isEmpty && dictMem "&" f.attrs then
      match dictGet? "&" f.attrs with
      | some anchorName => return .dict [("&", anchorName), ("value", .dict bodyObj)]
      | none => return .dict bodyObj
    else return .dict bodyObj

/-- The `@vars` accumulation loop: top-down resolution of KV entries
(non-KV body members are skipped, as in the source). -/
def accumulateVars (body : List BodyItem) (acc : List (String × Val)) :
    Except Err (List (String × Val)) :=
  match body with
  | [] => .ok acc
  | .kv key value _ _ :: rest => do
      let val ← resolveValueTopdown value acc
      accumulateVars rest (dictSet acc key val)
  | .li _ _ _ _ :: rest => accumulateVars rest acc

/-- Split compile-time facets: returns `(compile_vars, var_types_specs,
normal_facets)` (the first loop of `canonize`). -/
def splitCompileFacets (facets : List FacetNode) :
    Except Err (List (String × Val) × List (String × Val) × List FacetNode) :=
  let step := fun acc (f : FacetNode) => do
    let (vars, specs, normal) ← acc
    if f.name == "vars" then do
      let vars' ← accumulateVars f.body vars
      pure (vars', specs, normal)
    else if f.name == "var_types" then
      let specMap := f.body.foldl (fun m it =>
        match it with
        | .kv key value _ _ => dictSet m key value
        | _ => m) ([] : List (String × Val))
      pure (vars, specMap, normal)
    else pure (vars, specs, normal ++ [f])
  facets.foldl step (.ok ([], [], []))

/-- Embedded import expansion for the modelled fragment: a facet list
without `@import` directives passes through unchanged (the source's
`expand_imports` only reads files when it meets a facet named
`import`; on such documents it is the identity).  Documents with
imports need the file system and are outside this model. -/
def expandImportsNoFS (facets : List FacetNode) : Except Err (List FacetNode) :=
  if facets.any (fun f => f.name == "import") then
    .error (errF "MODEL-IMPORT" "@import requires the file system; outside the model")
  else .ok facets

/-- Embedded `canonize` for import-free documents: lex, parse, split
compile-time facets, validate declared types, build the environment for
the chosen resolve mode, filter and evaluate facets, then resolve
anchors over the whole output. -/
def canonize (ext : Ext) (text : String) (hostVars : List (String × Val))
    (resolveMode : String) : Except Err Val := do
  let tokens ← lex text
  let facets ← parse tokens
  let facets ← expandImportsNoFS facets
  let (compileVars, varTypesSpecs, normalFacets) ← splitCompileFacets facets
  if !varTypesSpecs.isEmpty then
    validateVarTypes ext compileVars varTypesSpecs
  let env := if resolveMode == "all" then dictUpdate compileVars hostVars else hostVars
  let out ← normalFacets.foldlM (fun (acc : List (String × Val)) f => do
    let keep ← facetIfDecision f env
    if !keep then pure acc
    else do
      let v ← canonizeFacetBody ext env f
      pure (dictSet acc f.name v)) []
  resolveAnchors (.dict out)

/-- A default external-function record for concrete runs that never
reach a user regex or a shuffle. -/
def extNone : Ext :=
  ⟨fun _ _ _ => none, fun _ xs => xs, fun _ _ => false⟩

/-! ## Claims -/

/-- Claim C1: for a non-empty list and a seed, `choose` returns the
element at index `k mod length`, where `k` is the BLAKE2b-16 key over
`str(seed)`, the byte `0x1F` and the canonical JSON bytes of the list,
read big-endian from the first eight digest bytes (`seedKey` is that
derivation, translated from `_seed_key`); consequently `choose` is
deterministic and always returns an element of the list. -/
theorem choose_picks_hashed_index (xs : List Val) (s : Val) (k : Nat)
    (hne : xs ≠ []) (hk : seedKey s (.list xs) = .ok k) :
    choose (.list xs) (some s) = .ok (xs.getD (k % xs.length) .null) ∧
    (∀ v, choose (.list xs) (some s) = .ok v → v ∈ xs) ∧
    (∀ ys t, xs = ys → s = t → choose (.list xs) (some s) = choose (.list ys) (some t)) := by
  have hempty : xs.isEmpty = false := by
    cases xs with
    | nil => exact absurd rfl hne
    | cons a l => rfl
  have hlen : 0 < xs.length := List.length_pos.mpr hne
  have hchoose : choose (.list xs) (some s) = .ok (xs.getD (k % xs.length) .null) := by
    simp only [choose, hempty, Bool.false_eq_true, if_false, hk]
    rfl
  refine ⟨hchoose, ?_, ?_⟩
  · intro v hv
    rw [hchoose] at hv
    have hv' : v = xs.getD (k % xs.length) .null := by
      injection hv with h
      exact h.symm
    rw [hv', List.getD_eq_getElem xs .null (Nat.mod_lt k hlen)]
    exact List.getElem_mem _
  · intro ys t h1 h2
    rw [h1, h2]

/-- Claim C1 witness: at the list `["a", "b", "c"]` and seed `42` the
derived key is `7926776670909108778`, whose remainder mod 3 is 1, so
`choose` returns `"b"`. -/
theorem choose_picks_hashed_index_witness :
    choose (.list [.str "a", .str "b", .str "c"]) (some (.int 42)) = .ok (.str "b") := by
  have h := choose_picks_hashed_index [.str "a", .str "b", .str "c"] (.int 42)
    7926776670909108778 (by simp) rfl
  simpa using h.1

/-- Rendered tokens of the facet-level anchor document, used to stage
the concrete `canonize` evaluation. -/
def toksAnchorLeak : List Token :=
  [⟨.AT, "", ⟨1, 1⟩⟩, ⟨.IDENT, "f", ⟨1, 2⟩⟩, ⟨.AMP, "", ⟨1, 4⟩⟩, ⟨.IDENT, "x", ⟨1, 5⟩⟩,
   ⟨.NEWLINE, "", ⟨1, 6⟩⟩, ⟨.INDENT, "", ⟨2, 3⟩⟩, ⟨.IDENT, "k", ⟨2, 3⟩⟩, ⟨.COLON, "", ⟨2, 4⟩⟩,
   ⟨.NUMBER, "1", ⟨2, 6⟩⟩, ⟨.NEWLINE, "", ⟨2, 7⟩⟩, ⟨.DEDENT, "", ⟨3, 1⟩⟩, ⟨.EOF, "", ⟨3, 1⟩⟩]

mutual

/-- Decision procedure for the claim's "no map node anywhere in the
tree has a key `&` or a key `*`" (stated from the spec's words, to be
compared with what `canonize` produces). -/
def specHasMarkerKey : Val → Bool
  | .dict es => specHasMarkerEntries es
  | .list items => specHasMarkerList items
  | _ => false

/-- Entry scan of `specHasMarkerKey`. -/
def specHasMarkerEntries : List (String × Val) → Bool
  | [] => false
  | (k, v) :: rest => k == "&" || k == "*" || specHasMarkerKey v || specHasMarkerEntries rest

/-- Item scan of `specHasMarkerKey`. -/
def specHasMarkerList : List Val → Bool
  | [] => false
  | v :: rest => specHasMarkerKey v || specHasMarkerList rest

end

/-- Claim C2 failing input: compiling `@f &x\n  k: 1\n` succeeds, yet
the canonical tree keeps the anchor marker: the `&` attribute the
parser records for the facet-level anchor is copied into `_attrs`, and
the anchor resolver does not treat the `_attrs` dict (key `&` without a
`value` key) as an anchor node, so `{&: x}` survives into the output —
contradicting the spec's no-leakage invariant. -/
theorem canonize_anchor_marker_leak :
    canonize extNone "@f &x\n  k: 1\n" [] "host" =
      .ok (.dict [("f", .dict [("_attrs", .dict [("&", .str "x")]), ("k", .int 1)])]) ∧
    specHasMarkerKey (.dict [("f", .dict [("_attrs", .dict [("&", .str "x")]), ("k", .int 1)])]) =
      true := by
  constructor
  · have h1 : lex "@f &x\n  k: 1\n" = .ok toksAnchorLeak := rfl
    unfold canonize
    rw [h1]
    rfl
  · rfl

/-- Rendered tokens of the anchored facet with a `value` attribute. -/
def toksValueAttr : List Token :=
  [⟨.AT, "", ⟨1, 1⟩⟩, ⟨.IDENT, "f", ⟨1, 2⟩⟩, ⟨.AMP, "", ⟨1, 4⟩⟩, ⟨.IDENT, "x", ⟨1, 5⟩⟩,
   ⟨.LPAREN, "", ⟨1, 6⟩⟩, ⟨.IDENT, "value", ⟨1, 7⟩⟩, ⟨.EQUAL, "", ⟨1, 12⟩⟩,
   ⟨.NUMBER, "1", ⟨1, 13⟩⟩, ⟨.RPAREN, "", ⟨1, 14⟩⟩, ⟨.NEWLINE, "", ⟨1, 15⟩⟩,
   ⟨.INDENT, "", ⟨2, 3⟩⟩, ⟨.IDENT, "k", ⟨2, 3⟩⟩, ⟨.COLON, "", ⟨2, 4⟩⟩,
   ⟨.NUMBER, "2", ⟨2, 6⟩⟩, ⟨.NEWLINE, "", ⟨2, 7⟩⟩, ⟨.DEDENT, "", ⟨3, 1⟩⟩, ⟨.EOF, "", ⟨3, 1⟩⟩]

/-- Claim C5 failing input: the attribute `value=1` of
`@f &x(value=1)` parses successfully (the attribute dict is
`{value: 1, &: x}`), yet in the final output the whole `_attrs` map has
been replaced by `1`: the anchor resolver sees a dict with keys `&` and
`value` and strips it to its `value` member.  The parsed attribute
value does not appear unchanged in the output, contradicting the
attribute-purity invariant (the `F304` rejection half of the claim does
hold; the purity half fails). -/
theorem canonize_attr_not_pure :
    ((lex "@f &x(value=1)\n  k: 2\n").bind parse) =
      .ok [⟨"f", [("value", .int 1), ("&", .str "x")],
            [.kv "k" (.int 2) [] ⟨2, 3⟩], ⟨1, 2⟩⟩] ∧
    canonize extNone "@f &x(value=1)\n  k: 2\n" [] "host" =
      .ok (.dict [("f", .dict [("_attrs", .int 1), ("k", .int 2)])]) := by
  constructor
  · have h1 : lex "@f &x(value=1)\n  k: 2\n" = .ok toksValueAttr := rfl
    rw [h1]
    rfl
  · have h1 : lex "@f &x(value=1)\n  k: 2\n" = .ok toksValueAttr := rfl
    unfold canonize
    rw [h1]
    rfl

/-- Claim C7 failing input: the grammar (and the engine's own header
comment) make `null` a literal of the if-expression sub-language, but
`_parse_literal` returns Python `None` both for the `null` literal and
for "not a literal", so `parse_primary` falls through to a dotted-name
lookup: `null == null` in an empty environment raises `F702` instead of
evaluating to true. -/
theorem evalIf_null_not_literal :
    evalIf "null == null" [] =
      .error (errF "F702" "If-expression unknown variable 'null'") := rfl

/-- Claim C9: a facet whose `if` attribute is the empty string (or only
whitespace) is never filtered out, and `eval_if` of a blank expression
is true for every environment: blank expressions return true before the
environment is consulted, the empty string short-circuits even earlier
in the facet filter, and the end-to-end compilation keeps such a
facet. -/
theorem blank_if_is_true :
    (∀ (env : List (String × Val)) (s : String), pyStrip s = "" → evalIf s env = .ok true) ∧
    (∀ (f : FacetNode) (env : List (String × Val)),
      dictGet? "if" f.attrs = some (.str "") → facetIfDecision f env = .ok true) ∧
    (∀ (f : FacetNode) (env : List (String × Val)) (s : String),
      dictGet? "if" f.attrs = some (.str s) → s.data.all isPySpace = true →
      facetIfDecision f env = .ok true) ∧
    canonize extNone "@f(if=\"\")\n  k: 1\n" [] "host" =
      .ok (.dict [("f", .dict [("_attrs", .dict [("if", .str "")]), ("k", .int 1)])]) := by
  have hblank : ∀ (env : List (String × Val)) (s : String),
      pyStrip s = "" → evalIf s env = .ok true := by
    intro env s hs
    simp [evalIf, hs]
  refine ⟨hblank, ?_, ?_, ?_⟩
  · intro f env hif
    simp [facetIfDecision, hif]
  · intro f env s hif hsp
    have hstrip : pyStrip s = "" := by
      have h1 : s.data.dropWhile isPySpace = [] :=
        List.dropWhile_eq_nil_iff.mpr (fun x hx => List.all_eq_true.mp hsp x hx)
      simp [pyStrip, pyStripChars, h1]
    by_cases hse : s = ""
    · subst hse
      simp [facetIfDecision, hif]
    · simp [facetIfDecision, hif, hse, hblank env s hstrip]
  · have h1 : lex "@f(if=\"\")\n  k: 1\n" =
        .ok [⟨.AT, "", ⟨1, 1⟩⟩, ⟨.IDENT, "f", ⟨1, 2⟩⟩, ⟨.LPAREN, "", ⟨1, 3⟩⟩,
             ⟨.IDENT, "if", ⟨1, 4⟩⟩, ⟨.EQUAL, "", ⟨1, 6⟩⟩, ⟨.STRING, "", ⟨1, 7⟩⟩,
             ⟨.RPAREN, "", ⟨1, 9⟩⟩, ⟨.NEWLINE, "", ⟨1, 10⟩⟩, ⟨.INDENT, "", ⟨2, 3⟩⟩,
             ⟨.IDENT, "k", ⟨2, 3⟩⟩, ⟨.COLON, "", ⟨2, 4⟩⟩, ⟨.NUMBER, "1", ⟨2, 6⟩⟩,
             ⟨.NEWLINE, "", ⟨2, 7⟩⟩, ⟨.DEDENT, "", ⟨3, 1⟩⟩, ⟨.EOF, "", ⟨3, 1⟩⟩] := rfl
    unfold canonize
    rw [h1]
    rfl

/-- Claim C9 witness: concrete blank expressions and a concrete facet
with an empty `if` attribute. -/
theorem blank_if_is_true_witness :
    evalIf "  " [("x", .int 1)] = .ok true ∧
    facetIfDecision ⟨"f", [("if", .str "")], [], ⟨1, 2⟩⟩ [] = .ok true ∧
    facetIfDecision ⟨"f", [("if", .str " ")], [], ⟨1, 2⟩⟩ [] = .ok true :=
  ⟨blank_if_is_true.1 [("x", .int 1)] "  " rfl,
   blank_if_is_true.2.1 ⟨"f", [("if", .str "")], [], ⟨1, 2⟩⟩ [] rfl,
   blank_if_is_true.2.2.1 ⟨"f", [("if", .str " ")], [], ⟨1, 2⟩⟩ [] " " rfl (by decide)⟩

/-- Claim C10: `trim` passes every non-string value through unchanged
and never raises, while the other string lenses (`dedent`,
`squeeze_spaces`, `limit`, `lower`, `upper`, `replace`,
`regex_replace`) reject every non-string value with the type-mismatch
code `F102`. -/
theorem trim_total_string_lenses_strict (v : Val) (hv : v.isStr = false) :
    trim v = v ∧
    errCodeOf (dedent v) = some "F102" ∧
    errCodeOf (squeeze_spaces v) = some "F102" ∧
    (∀ n : Int, errCodeOf (limit v n) = some "F102") ∧
    errCodeOf (lower v) = some "F102" ∧
    errCodeOf (upper v) = some "F102" ∧
    (∀ old new : String, errCodeOf (replace v old new) = some "F102") ∧
    (∀ (ext : Ext) (pat repl : String), errCodeOf (regex_replace ext v pat repl) = some "F102") := by
  cases v <;>
    simp_all [Val.isStr, trim, dedent, squeeze_spaces, limit, lower, upper, replace,
      regex_replace, errCodeOf, errF]

/-- Rendered tokens of the duplicate-attribute document. -/
def toksDupAttr : List Token :=
  [⟨.AT, "", ⟨1, 1⟩⟩, ⟨.IDENT, "f", ⟨1, 2⟩⟩, ⟨.LPAREN, "", ⟨1, 3⟩⟩, ⟨.IDENT, "a", ⟨1, 4⟩⟩,
   ⟨.EQUAL, "", ⟨1, 5⟩⟩, ⟨.NUMBER, "1", ⟨1, 6⟩⟩, ⟨.COMMA, "", ⟨1, 7⟩⟩, ⟨.IDENT, "a", ⟨1, 9⟩⟩,
   ⟨.EQUAL, "", ⟨1, 10⟩⟩, ⟨.NUMBER, "2", ⟨1, 11⟩⟩, ⟨.RPAREN, "", ⟨1, 12⟩⟩,
   ⟨.NEWLINE, "", ⟨1, 13⟩⟩, ⟨.INDENT, "", ⟨2, 3⟩⟩, ⟨.IDENT, "k", ⟨2, 3⟩⟩, ⟨.COLON, "", ⟨2, 4⟩⟩,
   ⟨.NUMBER, "1", ⟨2, 6⟩⟩, ⟨.NEWLINE, "", ⟨2, 7⟩⟩, ⟨.DEDENT, "", ⟨3, 1⟩⟩, ⟨.EOF, "", ⟨3, 1⟩⟩]

/-- Rendered tokens of the duplicate-inline-map-key document. -/
def toksDupMap : List Token :=
  [⟨.AT, "", ⟨1, 1⟩⟩, ⟨.IDENT, "a", ⟨1, 2⟩⟩, ⟨.NEWLINE, "", ⟨1, 3⟩⟩, ⟨.INDENT, "", ⟨2, 3⟩⟩,
   ⟨.IDENT, "k", ⟨2, 3⟩⟩, ⟨.COLON, "", ⟨2, 4⟩⟩, ⟨.LBRACE, "", ⟨2, 6⟩⟩, ⟨.IDENT, "x", ⟨2, 7⟩⟩,
   ⟨.COLON, "", ⟨2, 8⟩⟩, ⟨.NUMBER, "1", ⟨2, 10⟩⟩, ⟨.COMMA, "", ⟨2, 11⟩⟩,
   ⟨.IDENT, "x", ⟨2, 13⟩⟩, ⟨.COLON, "", ⟨2, 14⟩⟩, ⟨.NUMBER, "2", ⟨2, 16⟩⟩,
   ⟨.RBRACE, "", ⟨2, 17⟩⟩, ⟨.NEWLINE, "", ⟨2, 18⟩⟩, ⟨.DEDENT, "", ⟨3, 1⟩⟩, ⟨.EOF, "", ⟨3, 1⟩⟩]

/-- Claim C8 counterexample: a repeated attribute key and a repeated
inline-map key are not rejected — parsing and full compilation succeed,
silently keeping a single entry (the last value): `@f(a=1, a=2)` parses
to the attribute map `{a: 2}`, and `k: {x: 1, x: 2}` compiles to
`{x: 2}`. -/
theorem duplicate_keys_not_rejected :
    ((lex "@f(a=1, a=2)\n  k: 1\n").bind parse) =
      .ok [⟨"f", [("a", .int 2)], [.kv "k" (.int 1) [] ⟨2, 3⟩], ⟨1, 2⟩⟩] ∧
    canonize extNone "@a\n  k: \x7bx: 1, x: 2\x7d\n" [] "host" =
      .ok (.dict [("a", .dict [("k", .dict [("x", .int 2)])])]) := by
  constructor
  · have h1 : lex "@f(a=1, a=2)\n  k: 1\n" = .ok toksDupAttr := rfl
    rw [h1]
    rfl
  · have h1 : lex "@a\n  k: \x7bx: 1, x: 2\x7d\n" = .ok toksDupMap := rfl
    unfold canonize
    rw [h1]
    rfl

/-- Claim C8 amended: duplicate keys in a facet attribute list or an
inline map are not rejected; parsing keeps a single entry per key with
Python dict-assignment semantics — the position of the first
occurrence, the value of the last: `dictSet` (the embedded `d[k] = v`)
yields the last value under lookup and leaves the key order unchanged
when the key is present, and the duplicate-attribute token stream
parses to `{a: 2}`. -/
theorem duplicate_keys_last_wins :
    (∀ (d : List (String × Val)) (k : String) (v : Val),
      dictGet? k (dictSet d k v) = some v ∧
      (dictSet d k v).map Prod.fst =
        (if dictMem k d then d.map Prod.fst else d.map Prod.fst ++ [k])) ∧
    parseAttrs (toksDupAttr.drop 3) =
      .ok ([("a", .int 2)], toksDupAttr.drop 10) := by
  constructor
  · intro d k v
    induction d with
    | nil => simp [dictSet, dictGet?, dictMem]
    | cons hd tl ih =>
        obtain ⟨k', v'⟩ := hd
        by_cases hk : (k == k')
        · have hkeq : k = k' := eq_of_beq hk
          subst hkeq
          simp [dictSet, dictGet?, dictMem]
        · simp only [dictSet, dictGet?, dictMem, hk, Bool.false_or, if_false,
            Bool.false_eq_true, List.map_cons, List.cons_append]
          exact ⟨ih.1, by rw [ih.2]; by_cases hm : dictMem k tl <;> simp [hm]⟩
  · rfl

/-- The `@vars` forward-reference document's tokens. -/
def toksVarsRef : List Token :=
  [⟨.AT, "", ⟨1, 1⟩⟩, ⟨.IDENT, "vars", ⟨1, 2⟩⟩, ⟨.NEWLINE, "", ⟨1, 6⟩⟩, ⟨.INDENT, "", ⟨2, 3⟩⟩,
   ⟨.IDENT, "a", ⟨2, 3⟩⟩, ⟨.COLON, "", ⟨2, 4⟩⟩, ⟨.STRING, "$b", ⟨2, 6⟩⟩,
   ⟨.NEWLINE, "", ⟨2, 8⟩⟩, ⟨.DEDENT, "", ⟨3, 1⟩⟩, ⟨.EOF, "", ⟨3, 1⟩⟩]

/-- The single-character-interpolation `@vars` document's tokens. -/
def toksVarsBrace : List Token :=
  [⟨.AT, "", ⟨1, 1⟩⟩, ⟨.IDENT, "vars", ⟨1, 2⟩⟩, ⟨.NEWLINE, "", ⟨1, 6⟩⟩, ⟨.INDENT, "", ⟨2, 3⟩⟩,
   ⟨.IDENT, "a", ⟨2, 3⟩⟩, ⟨.COLON, "", ⟨2, 4⟩⟩, ⟨.STRING, "\x7b\x7bx\x7d\x7d", ⟨2, 6⟩⟩,
   ⟨.NEWLINE, "", ⟨2, 13⟩⟩, ⟨.DEDENT, "", ⟨3, 1⟩⟩, ⟨.EOF, "", ⟨3, 1⟩⟩]

/-- Claim C4 counterexample: the `@vars` right-hand side `"{{x}}"`
references the undefined path `x`, but compilation fails with `F402A`
(the interpolator's undefined-template-variable error), not `F404`: the
top-down resolver's pre-check regex requires references of two or more
word characters, so single-character references escape the `F404`
check and fail later inside `interpolate_string`. -/
theorem vars_single_char_ref_not_F404 :
    canonize extNone "@vars\n  a: \"\x7b\x7bx\x7d\x7d\"\n" [] "all" =
      .error (errF "F402A" "Undefined template variable '\x7b\x7bx\x7d\x7d'") := by
  have h1 : lex "@vars\n  a: \"\x7b\x7bx\x7d\x7d\"\n" = .ok toksVarsBrace := rfl
  unfold canonize
  rw [h1]
  rfl

/-- Claim C4 amended: inside `@vars`, `$name` and `${dotted.path}`
right-hand sides resolve against the entries defined so far and fail
with `F404` when the path is absent; a right-hand side containing
`{{…}}` fails with `F404` when the reference scanner (which only sees
references of two or more word characters) finds an unresolvable
reference, while scanner-invisible references (such as the
single-character `{{x}}`) fail later with `F402A`; and the concrete
source `@vars\n  a: $b\n` fails with `F404`. -/
theorem vars_topdown_resolution :
    canonize extNone "@vars\n  a: $b\n" [] "all" =
      .error (errF "F404" "Variable forward reference 'b'") ∧
    (∀ (s : String) (env : List (String × Val)),
      strStarts s "$" = true →
      (strStarts s "$\x7b" && strEnds s "\x7d") = false →
      1 < strLen s →
      (pathExists env (strDrop s 1) = false →
        resolveValueTopdown (.str s) env =
          .error (errF "F404" ("Variable forward reference '" ++ strDrop s 1 ++ "'"))) ∧
      (pathExists env (strDrop s 1) = true →
        resolveValueTopdown (.str s) env = getPath env (strDrop s 1))) ∧
    (∀ (inner : String) (env : List (String × Val)),
      let s : String := "$\x7b" ++ inner ++ "\x7d"
      let path : String := ⟨pyStripChars inner.data⟩
      (pathExists env path = false →
        resolveValueTopdown (.str s) env =
          .error (errF "F404" ("Variable forward reference '" ++ path ++ "'"))) ∧
      (pathExists env path = true →
        resolveValueTopdown (.str s) env = getPath env path)) ∧
    (∀ (s : String) (env : List (String × Val)) (ref : String),
      (strStarts s "$\x7b" && strEnds s "\x7d") = false →
      (strStarts s "$" && decide (1 < strLen s)) = false →
      strHasSub "\x7b\x7b" s = true →
      (findRefs (s.length + 1) s.data).find? (fun r => !pathExists env r) = some ref →
      resolveValueTopdown (.str s) env =
        .error (errF "F404" ("Variable forward reference '" ++ ref ++ "'"))) := by
  refine ⟨?_, ?_, ?_, ?_⟩
  · have h1 : lex "@vars\n  a: $b\n" = .ok toksVarsRef := rfl
    unfold canonize
    rw [h1]
    rfl
  · intro s env h1 h2 h3
    constructor
    · intro hp
      simp [resolveValueTopdown, h1, h2, h3, hp]
    · intro hp
      simp [resolveValueTopdown, h1, h2, h3, hp]
  · intro inner env
    have hdata : ("$\x7b" ++ inner ++ "\x7d" : String).data =
        '$' :: '\x7b' :: inner.data ++ ['\x7d'] := by
      simp [String.data_append]
    have hstart : strStarts ("$\x7b" ++ inner ++ "\x7d") "$\x7b" = true := by
      simp [strStarts, hdata, List.isPrefixOf]
    have hend : strEnds ("$\x7b" ++ inner ++ "\x7d") "\x7d" = true := by
      simp [strEnds, hdata, List.isPrefixOf]
    have hpath : (("$\x7b" ++ inner ++ "\x7d" : String).data.drop 2).dropLast = inner.data := by
      simp [hdata]
    constructor
    · intro hp
      simp [resolveValueTopdown, hstart, hend, hpath, hp]
    · intro hp
      simp [resolveValueTopdown, hstart, hend, hpath, hp]
  · intro s env ref h1 h2 h3 h4
    simp [resolveValueTopdown, h1, h2, h3, h4]

/-- Claim C4 amended witness: the `$name` case at `s = "$b"` in the
empty environment, and the `${path}` case at `inner = "b"` in an
environment binding `b`. -/
theorem vars_topdown_resolution_witness :
    resolveValueTopdown (.str "$b") [] =
      .error (errF "F404" "Variable forward reference 'b'") ∧
    resolveValueTopdown (.str "$\x7bb\x7d") [("b", .int 2)] = .ok (.int 2) := by
  constructor
  · exact (vars_topdown_resolution.2.1 "$b" [] rfl rfl (by decide)).1 rfl
  · have h := (vars_topdown_resolution.2.2.1 "b" [("b", .int 2)]).2 rfl
    simpa using h

/-- Key of a KV body item, `none` for a list item. -/
def bodyKeyOf? : BodyItem → Option String
  | .kv k _ _ _ => some k
  | _ => none

/-- Keys of the KV entries of a body, in order. -/
def bodyKeys (items : List BodyItem) : List String :=
  items.filterMap bodyKeyOf?

/-- Membership of a string in a key list. -/
def strListMem (k : String) : List String → Bool
  | [] => false
  | x :: rest => k == x || strListMem k rest

/-- Does a body item carry key `k`? -/
def isKVKey (k : String) : BodyItem → Bool
  | .kv k0 _ _ _ => k0 == k
  | _ => false

/-- First KV entry of a body carrying key `k`. -/
def findKV (k : String) (items : List BodyItem) : Option BodyItem :=
  items.find? (isKVKey k)

/-- Spec-side (from the spec words "keeps first-appearance order"): the
keys of a KV body in order of first appearance. -/
def specFirstKeys (items : List BodyItem) : List String :=
  items.foldl (fun ks it =>
    match it with
    | .kv k _ _ _ => if strListMem k ks then ks else ks ++ [k]
    | _ => ks) []

/-- Spec-side (from the spec words "last-key-wins values"): the last KV
entry of a body carrying key `k`. -/
def specLastKV (items : List BodyItem) (k : String) : Option BodyItem :=
  items.reverse.find? (isKVKey k)

lemma listFindAppend {α : Type} (p : α → Bool) (l1 l2 : List α) :
    (l1 ++ l2).find? p =
      match l1.find? p with
      | some a => some a
      | none => l2.find? p := by
  induction l1 with
  | nil => simp
  | cons a rest ih =>
      by_cases hp : p a
      · simp [List.find?, hp]
      · simp only [Bool.not_eq_true] at hp
        simp [List.find?, hp, ih]

lemma bodyKeys_cons_kv (k : String) (v : Val) (ls : List LensSpec) (p : Pos)
    (rest : List BodyItem) :
    bodyKeys (.kv k v ls p :: rest) = k :: bodyKeys rest := rfl

lemma bodyKeys_cons_li (v : Val) (i : Option String) (ls : List LensSpec) (p : Pos)
    (rest : List BodyItem) :
    bodyKeys (.li v i ls p :: rest) = bodyKeys rest := rfl

lemma findKV_cons_kv (q k : String) (v : Val) (ls : List LensSpec) (p : Pos)
    (rest : List BodyItem) :
    findKV q (.kv k v ls p :: rest) =
      if (k == q) = true then some (.kv k v ls p) else findKV q rest := by
  by_cases h : (k == q) = true
  · simp [findKV, List.find?, isKVKey, h]
  · simp only [Bool.not_eq_true] at h
    simp [findKV, List.find?, isKVKey, h]

lemma findKV_cons_li (q : String) (v : Val) (i : Option String) (ls : List LensSpec)
    (p : Pos) (rest : List BodyItem) :
    findKV q (.li v i ls p :: rest) = findKV q rest := by
  simp [findKV, List.find?, isKVKey]

lemma upsert_keys (acc : List BodyItem) (k : String) (v : Val) (ls : List LensSpec)
    (p : Pos) :
    bodyKeys (mergeKVBodies.upsert acc k (.kv k v ls p)) =
      if strListMem k (bodyKeys acc) then bodyKeys acc else bodyKeys acc ++ [k] := by
  induction acc with
  | nil => simp [mergeKVBodies.upsert, bodyKeys, bodyKeyOf?, strListMem]
  | cons a rest ih =>
      cases a with
      | kv k1 v1 ls1 p1 =>
          by_cases hk : k = k1
          · subst hk
            simp [mergeKVBodies.upsert, bodyKeys_cons_kv, strListMem]
          · have hkb : (k == k1) = false := by simp [hk]
            rw [show mergeKVBodies.upsert (.kv k1 v1 ls1 p1 :: rest) k (.kv k v ls p) =
                .kv k1 v1 ls1 p1 :: mergeKVBodies.upsert rest k (.kv k v ls p) by
              simp [mergeKVBodies.upsert, hkb]]
            rw [bodyKeys_cons_kv, bodyKeys_cons_kv, ih]
            simp only [strListMem, hkb, Bool.false_or]
            by_cases hm : strListMem k (bodyKeys rest) = true
            · simp [hm]
            · simp only [Bool.not_eq_true] at hm
              simp [hm]
      | li v1 i1 ls1 p1 =>
          rw [show mergeKVBodies.upsert (.li v1 i1 ls1 p1 :: rest) k (.kv k v ls p) =
              .li v1 i1 ls1 p1 :: mergeKVBodies.upsert rest k (.kv k v ls p) from rfl]
          rw [bodyKeys_cons_li, bodyKeys_cons_li, ih]

lemma upsert_find (acc : List BodyItem) (k : String) (v : Val) (ls : List LensSpec)
    (p : Pos) (q : String) :
    findKV q (mergeKVBodies.upsert acc k (.kv k v ls p)) =
      if q = k then some (.kv k v ls p) else findKV q acc := by
  induction acc with
  | nil =>
      by_cases hq : q = k
      · subst hq
        simp [mergeKVBodies.upsert, findKV, List.find?, isKVKey]
      · have h2 : (k == q) = false := by simp [Ne.symm hq]
        simp [mergeKVBodies.upsert, findKV, List.find?, isKVKey, h2, hq]
  | cons a rest ih =>
      cases a with
      | kv k1 v1 ls1 p1 =>
          by_cases hk : k = k1
          · subst hk
            rw [show mergeKVBodies.upsert (.kv k v1 ls1 p1 :: rest) k (.kv k v ls p) =
                .kv k v ls p :: rest by simp [mergeKVBodies.upsert]]
            by_cases hq : q = k
            · subst hq
              simp [findKV_cons_kv]
            · have h2 : (k == q) = false := by simp [Ne.symm hq]
              rw [findKV_cons_kv, findKV_cons_kv]
              simp [h2, hq]
          · have hkb : (k == k1) = false := by simp [hk]
            rw [show mergeKVBodies.upsert (.kv k1 v1 ls1 p1 :: rest) k (.kv k v ls p) =
                .kv k1 v1 ls1 p1 :: mergeKVBodies.upsert rest k (.kv k v ls p) by
              simp [mergeKVBodies.upsert, hkb]]
            rw [findKV_cons_kv, findKV_cons_kv, ih]
            by_cases h1 : k1 = q
            · subst h1
              have hq : ¬ (k1 = k) := fun hh => hk hh.symm
              simp [hq]
            · have h1b : (k1 == q) = false := by simp [h1]
              simp [h1b]
      | li v1 i1 ls1 p1 =>
          rw [show mergeKVBodies.upsert (.li v1 i1 ls1 p1 :: rest) k (.kv k v ls p) =
              .li v1 i1 ls1 p1 :: mergeKVBodies.upsert rest k (.kv k v ls p) from rfl]
          rw [findKV_cons_li, findKV_cons_li, ih]

lemma mergeKV_aux (items : List BodyItem) : ∀ acc : List BodyItem,
    bodyKeys (items.foldl (fun acc it =>
        match it with
        | .kv k _ _ _ => mergeKVBodies.upsert acc k it
        | _ => acc) acc) =
      items.foldl (fun ks it =>
        match it with
        | .kv k _ _ _ => if strListMem k ks then ks else ks ++ [k]
        | _ => ks) (bodyKeys acc) ∧
    ∀ q, findKV q (items.foldl (fun acc it =>
        match it with
        | .kv k _ _ _ => mergeKVBodies.upsert acc k it
        | _ => acc) acc) =
      match specLastKV items q with
      | some it => some it
      | none => findKV q acc := by
  induction items with
  | nil => intro acc; exact ⟨rfl, fun q => by simp [specLastKV]⟩
  | cons it rest ih =>
      intro acc
      cases it with
      | kv k0 v0 ls0 p0 =>
          constructor
          · have h := (ih (mergeKVBodies.upsert acc k0 (.kv k0 v0 ls0 p0))).1
            simpa [List.foldl_cons, upsert_keys] using h
          · intro q
            have h := (ih (mergeKVBodies.upsert acc k0 (.kv k0 v0 ls0 p0))).2 q
            simp only [List.foldl_cons] at h ⊢
            rw [h, upsert_find]
            have hrev : specLastKV (BodyItem.kv k0 v0 ls0 p0 :: rest) q =
                match specLastKV rest q with
                | some e => some e
                | none => if (k0 == q) = true then some (.kv k0 v0 ls0 p0) else none := by
              simp only [specLastKV, List.reverse_cons, listFindAppend]
              cases (rest.reverse.find? (isKVKey q)) with
              | none =>
                  by_cases h0 : (k0 == q) = true
                  · simp [List.find?, isKVKey, h0]
                  · simp only [Bool.not_eq_true] at h0
                    simp [List.find?, isKVKey, h0]
              | some e => simp
            rw [hrev]
            cases hL : specLastKV rest q with
            | some e => simp
            | none =>
                by_cases hq : q = k0
                · subst hq; simp
                · have h2 : (k0 == q) = false := by simp [Ne.symm hq]
                  simp [hq, h2]
      | li v0 i0 ls0 p0 =>
          constructor
          · have h := (ih acc).1
            simpa [List.foldl_cons] using h
          · intro q
            have h := (ih acc).2 q
            simp only [List.foldl_cons] at h ⊢
            rw [h]
            have hrev : specLastKV (BodyItem.li v0 i0 ls0 p0 :: rest) q =
                specLastKV rest q := by
              simp only [specLastKV, List.reverse_cons, listFindAppend]
              cases (rest.reverse.find? (isKVKey q)) with
              | none => simp [List.find?, isKVKey]
              | some e => simp
            rw [hrev]

lemma mergeKV_characterization (items : List BodyItem) :
    bodyKeys (mergeKVBodies items) = specFirstKeys items ∧
    ∀ q, findKV q (mergeKVBodies items) = specLastKV items q := by
  have h := mergeKV_aux items []
  refine ⟨h.1, fun q => ?_⟩
  have h2 := h.2 q
  rw [show mergeKVBodies items = items.foldl (fun acc it =>
      match it with
      | .kv k _ _ _ => mergeKVBodies.upsert acc k it
      | _ => acc) [] from rfl, h2]
  cases specLastKV items q with
  | none => simp [findKV]
  | some e => simp

lemma dictGet_dictSet (d : List (String × Val)) (k k0 : String) (v0 : Val) :
    dictGet? k (dictSet d k0 v0) = if k == k0 then some v0 else dictGet? k d := by
  induction d with
  | nil => simp [dictSet, dictGet?]
  | cons e rest ih =>
      obtain ⟨k1, v1⟩ := e
      by_cases h1 : k0 = k1
      · subst h1
        by_cases hk : k = k0
        · subst hk; simp [dictSet, dictGet?]
        · simp [dictSet, dictGet?, hk]
      · have h1b : (k0 == k1) = false := by simp [h1]
        by_cases hk : k = k1
        · subst hk
          have hne : ¬ k = k0 := Ne.symm h1
          have : (k == k0) = false := by simp [hne]
          simp [dictSet, dictGet?, h1b, this]
        · simp [dictSet, dictGet?, h1b, hk, ih]

lemma dictGet_dictUpdate (src : List (String × Val)) : ∀ d k,
    dictGet? k (dictUpdate d src) =
      match src.reverse.find? (fun e => k == e.fst) with
      | some e => some e.snd
      | none => dictGet? k d := by
  induction src with
  | nil => intro d k; simp [dictUpdate]
  | cons e rest ih =>
      intro d k
      obtain ⟨k0, v0⟩ := e
      have hstep : dictUpdate d ((k0, v0) :: rest) = dictUpdate (dictSet d k0 v0) rest := rfl
      rw [hstep, ih]
      have hrev : ((k0, v0) :: rest).reverse.find? (fun e => k == e.fst) =
          match rest.reverse.find? (fun e => k == e.fst) with
          | some e => some e
          | none => if k == k0 then some (k0, v0) else none := by
        simp only [List.reverse_cons, listFindAppend]
        cases (rest.reverse.find? fun e => k == e.fst) with
        | none =>
            by_cases h0 : k = k0
            · subst h0; simp [List.find?]
            · have h0b : (k == k0) = false := by simp [h0]
              simp [List.find?, h0b]
        | some e => simp
      rw [hrev]
      cases hL : rest.reverse.find? (fun e => k == e.fst) with
      | some e => simp
      | none =>
          rw [dictGet_dictSet]
          by_cases hk : k = k0
          · subst hk; simp
          · simp [hk]

lemma all_pair_true {α : Type} (p : α → Bool) {a b : List α}
    (h : (a.all p && b.all p) = true) :
    (∀ x ∈ a, p x = true) ∧ (∀ x ∈ b, p x = true) := by
  simp only [Bool.and_eq_true, List.all_eq_true] at h
  exact h

lemma all_pair_false {α : Type} (p : α → Bool) {a b : List α}
    (h : (a.all p && b.all p) = false) :
    ¬ ((∀ x ∈ a, p x = true) ∧ ∀ x ∈ b, p x = true) := by
  intro hc
  have h1 : a.all p = true := List.all_eq_true.mpr hc.1
  have h2 : b.all p = true := List.all_eq_true.mpr hc.2
  rw [h1, h2] at h
  simp at h

/-- Claim C6: merging an imported facet into a same-named host facet
with strategy `merge`: attribute maps are merged with the imported
entry winning on key conflict (precisely, a key is looked up in the
imported attrs first, falling back to the host); two all-KV bodies
merge to first-appearance key order with last-occurrence values
(`mergeKVBodies` provably computes the spec-side `specFirstKeys` /
`specLastKV` semantics); two all-list bodies concatenate host-first;
and a body shape mismatch replaces the host facet, or fails with `F606`
in strict mode. -/
theorem import_merge_semantics (host imp : FacetNode) (strict : Bool)
    (hname : host.name = imp.name) :
    ((host.body.all BodyItem.isKV && imp.body.all BodyItem.isKV) = true →
      mergeFacets [host] [imp] "merge" strict =
        .ok [{ host with
               attrs := dictUpdate host.attrs imp.attrs
               body := mergeKVBodies (host.body ++ imp.body) }]) ∧
    (∀ items : List BodyItem,
      bodyKeys (mergeKVBodies items) = specFirstKeys items ∧
      ∀ q, findKV q (mergeKVBodies items) = specLastKV items q) ∧
    ((host.body.all BodyItem.isKV && imp.body.all BodyItem.isKV) = false →
      (host.body.all BodyItem.isLI && imp.body.all BodyItem.isLI) = true →
      mergeFacets [host] [imp] "merge" strict =
        .ok [{ host with
               attrs := dictUpdate host.attrs imp.attrs
               body := host.body ++ imp.body }]) ∧
    ((host.body.all BodyItem.isKV && imp.body.all BodyItem.isKV) = false →
      (host.body.all BodyItem.isLI && imp.body.all BodyItem.isLI) = false →
      (strict = true →
        mergeFacets [host] [imp] "merge" strict =
          .error (errF "F606" "Import merge type mismatch in strict mode")) ∧
      (strict = false → mergeFacets [host] [imp] "merge" strict = .ok [imp])) ∧
    (∀ k, dictGet? k (dictUpdate host.attrs imp.attrs) =
      match imp.attrs.reverse.find? (fun e => k == e.fst) with
      | some e => some e.snd
      | none => dictGet? k host.attrs) := by
  have hidx : facetIndex [host] imp.name = some 0 := by
    simp [facetIndex, facetIndex.go, hname]
  have hrep : (("merge" : String) == "replace") = false := rfl
  refine ⟨?_, fun items => mergeKV_characterization items, ?_, ?_,
    fun k => dictGet_dictUpdate imp.attrs host.attrs k⟩
  · intro hkv
    obtain ⟨h1, h2⟩ := all_pair_true BodyItem.isKV hkv
    simp [mergeFacets, Bind.bind, Except.bind, hidx, hrep, List.get?, List.set, h1, h2]
    intro hc
    obtain ⟨x, hx, hfx⟩ := hc h1
    exact absurd (h2 x hx) (by simp [hfx])
  · intro hkv hli
    have hkv' := all_pair_false BodyItem.isKV hkv
    obtain ⟨h1, h2⟩ := all_pair_true BodyItem.isLI hli
    simp [mergeFacets, Bind.bind, Except.bind, hidx, hrep, List.get?, List.set,
      hkv', h1, h2]
    intro hc
    obtain ⟨x, hx, hfx⟩ := hc h1
    exact absurd (h2 x hx) (by simp [hfx])
  · intro hkv hli
    have hkv' := all_pair_false BodyItem.isKV hkv
    have hli' := all_pair_false BodyItem.isLI hli
    constructor
    · intro hs
      simp [mergeFacets, Bind.bind, Except.bind, hidx, hrep, List.get?, List.set,
        hkv', hli', hs]
    · intro hs
      simp [mergeFacets, Bind.bind, Except.bind, hidx, hrep, List.get?, List.set,
        hkv', hli', hs]

/-- Claim C6 witness: a KV merge where the imported attribute and the
imported value win, and a strict-mode shape mismatch raising `F606`. -/
theorem import_merge_semantics_witness :
    mergeFacets [⟨"f", [("x", .int 1)], [.kv "a" (.int 1) [] ⟨1, 1⟩], ⟨1, 1⟩⟩]
        [⟨"f", [("x", .int 2)], [.kv "a" (.int 2) [] ⟨1, 1⟩], ⟨1, 1⟩⟩] "merge" false =
      .ok [⟨"f", [("x", .int 2)], [.kv "a" (.int 2) [] ⟨1, 1⟩], ⟨1, 1⟩⟩] ∧
    mergeFacets [⟨"g", [], [.kv "a" (.int 1) [] ⟨1, 1⟩], ⟨1, 1⟩⟩]
        [⟨"g", [], [.li (.int 2) none [] ⟨1, 1⟩], ⟨1, 1⟩⟩] "merge" true =
      .error (errF "F606" "Import merge type mismatch in strict mode") := by
  constructor
  · exact (import_merge_semantics
      ⟨"f", [("x", .int 1)], [.kv "a" (.int 1) [] ⟨1, 1⟩], ⟨1, 1⟩⟩
      ⟨"f", [("x", .int 2)], [.kv "a" (.int 2) [] ⟨1, 1⟩], ⟨1, 1⟩⟩ false rfl).1 rfl
  · exact ((import_merge_semantics
      ⟨"g", [], [.kv "a" (.int 1) [] ⟨1, 1⟩], ⟨1, 1⟩⟩
      ⟨"g", [], [.li (.int 2) none [] ⟨1, 1⟩], ⟨1, 1⟩⟩ true rfl).2.2.2.1 rfl rfl).1 rfl

/-- Claim C10 witness: the integer `7` passes through `trim` and is
rejected by `dedent` and `limit`. -/
theorem trim_total_string_lenses_strict_witness :
    trim (.int 7) = .int 7 ∧
    errCodeOf (dedent (.int 7)) = some "F102" ∧
    errCodeOf (limit (.int 7) 3) = some "F102" :=
  ⟨(trim_total_string_lenses_strict (.int 7) rfl).1,
   (trim_total_string_lenses_strict (.int 7) rfl).2.1,
   (trim_total_string_lenses_strict (.int 7) rfl).2.2.2.1 3⟩

/-! ### Claim C3: indentation discipline and INDENT/DEDENT balance -/

/-- Number of tokens of kind `k` in a token list. -/
def countTok (k : TokKind) (ts : List Token) : Nat :=
  ts.countP (fun t => t.kind == k)

/-- Lexer-state invariant: INDENT minus DEDENT emitted so far equals the
indentation-stack depth above the bottom level, and the stack is never
empty. -/
def indentInv (st : LexSt) : Prop :=
  countTok .INDENT st.toks + 1 = countTok .DEDENT st.toks + st.indentStack.length ∧
  st.indentStack ≠ []

lemma countTok_cons_ne {t : Token} {k : TokKind} (h : (t.kind == k) = false)
    (ts : List Token) : countTok k (t :: ts) = countTok k ts := by
  simp [countTok, List.countP_cons, h]

lemma countTok_cons_eq {t : Token} {k : TokKind} (h : (t.kind == k) = true)
    (ts : List Token) : countTok k (t :: ts) = countTok k ts + 1 := by
  simp [countTok, List.countP_cons, h]

lemma countTok_reverse (k : TokKind) (ts : List Token) :
    countTok k ts.reverse = countTok k ts := by
  induction ts with
  | nil => rfl
  | cons t rest ih =>
      simp only [List.reverse_cons, countTok, List.countP_append, List.countP_cons,
        List.countP_nil] at ih ⊢
      omega

lemma lexAdv1_fields (st : LexSt) :
    (lexAdv1 st).toks = st.toks ∧ (lexAdv1 st).indentStack = st.indentStack := by
  obtain ⟨rest, line, col, toks, stack, bol, fence⟩ := st
  cases rest with
  | nil => exact ⟨rfl, rfl⟩
  | cons c r => by_cases hc : c == '\n' <;> simp [lexAdv1, hc]

/-- A state change that leaves the token list unchanged or prepends one
non-INDENT/DEDENT token, and keeps the stack, preserves the invariant. -/
lemma indentInv_of_neutral {st st' : LexSt} (h : indentInv st)
    (ht : st'.toks = st.toks ∨
      ∃ t : Token, (t.kind == TokKind.INDENT) = false ∧
        (t.kind == TokKind.DEDENT) = false ∧ st'.toks = t :: st.toks)
    (hs : st'.indentStack = st.indentStack) : indentInv st' := by
  obtain ⟨hbal, hne⟩ := h
  refine ⟨?_, by rw [hs]; exact hne⟩
  rw [hs]
  cases ht with
  | inl he => rw [he]; exact hbal
  | inr he =>
      obtain ⟨t, h1, h2, he⟩ := he
      rw [he, countTok_cons_ne h1, countTok_cons_ne h2]
      exact hbal

lemma lexSimple_inv {st : LexSt} (h : indentInv st) {k : TokKind}
    (h1 : (k == TokKind.INDENT) = false) (h2 : (k == TokKind.DEDENT) = false) :
    indentInv (lexSimple st k) := by
  refine indentInv_of_neutral h ?_ ?_
  · right
    refine ⟨⟨k, "", lexPos st⟩, h1, h2, ?_⟩
    show (lexAdv1 (lexEmit st k "" (lexPos st))).toks = _
    rw [(lexAdv1_fields _).1]
    rfl
  · show (lexAdv1 (lexEmit st k "" (lexPos st))).indentStack = _
    rw [(lexAdv1_fields _).2]
    rfl

lemma lexAdv1_toks (st : LexSt) : (lexAdv1 st).toks = st.toks := (lexAdv1_fields st).1

lemma lexAdv1_stack (st : LexSt) : (lexAdv1 st).indentStack = st.indentStack :=
  (lexAdv1_fields st).2

lemma scanStrBody_keeps (fuel : Nat) : ∀ (st : LexSt) (start : Pos) (acc : List Char)
    (res : List Char × LexSt), scanStrBody fuel st start acc = .ok res →
    res.2.toks = st.toks ∧ res.2.indentStack = st.indentStack := by
  induction fuel with
  | zero => intro st start acc res h; simp [scanStrBody] at h
  | succ fuel ih =>
      intro st start acc res h
      simp only [scanStrBody] at h
      split at h
      · simp at h
      · split at h
        · simp only [Except.ok.injEq] at h
          subst h
          exact ⟨lexAdv1_toks st, lexAdv1_stack st⟩
        · split at h
          · split at h
            · have := ih _ _ _ _ h
              simpa [lexAdv1_toks, lexAdv1_stack] using this
            · have := ih _ _ _ _ h
              simpa [lexAdv1_toks, lexAdv1_stack] using this
          · have := ih _ _ _ _ h
            simpa [lexAdv1_toks, lexAdv1_stack] using this

lemma scanTripleBody_keeps (fuel : Nat) : ∀ (st : LexSt) (start : Pos) (acc : List Char)
    (res : List Char × LexSt), scanTripleBody fuel st start acc = .ok res →
    res.2.toks = st.toks ∧ res.2.indentStack = st.indentStack := by
  induction fuel with
  | zero => intro st start acc res h; simp [scanTripleBody] at h
  | succ fuel ih =>
      intro st start acc res h
      simp only [scanTripleBody] at h
      split at h
      · simp at h
      · simp only [Except.ok.injEq] at h
        subst h
        simp [lexAdv1_toks, lexAdv1_stack]
      · have := ih _ _ _ _ h
        simpa [lexAdv1_toks, lexAdv1_stack] using this

lemma scanFenceBody_keeps (fuel : Nat) : ∀ (st : LexSt) (start : Pos) (isInline : Bool)
    (racc : List Char) (bytes : Nat) (res : List Char × LexSt),
    scanFenceBody fuel st start isInline racc bytes = .ok res →
    res.2.toks = st.toks ∧ res.2.indentStack = st.indentStack := by
  induction fuel with
  | zero => intro st start isInline racc bytes res h; simp [scanFenceBody] at h
  | succ fuel ih =>
      intro st start isInline racc bytes res h
      simp only [scanFenceBody] at h
      split at h
      · simp at h
      · split at h
        · simp only [Except.ok.injEq] at h
          subst h
          simp [lexAdv1_toks, lexAdv1_stack]
        · split at h
          · simp only [Except.ok.injEq] at h
            subst h
            simp [lexAdv1_toks, lexAdv1_stack]
          · split at h
            · simp only [Except.ok.injEq] at h
              subst h
              simp [lexAdv1_toks, lexAdv1_stack]
            · split at h
              · simp at h
              · have := ih _ _ _ _ _ _ h
                simpa [lexAdv1_toks, lexAdv1_stack] using this
      · split at h
        · simp at h
        · have := ih _ _ _ _ _ _ h
          simpa [lexAdv1_toks, lexAdv1_stack] using this

lemma scanDollarBrace_keeps (fuel : Nat) : ∀ (st : LexSt) (start : Pos) (acc : List Char)
    (res : List Char × LexSt), scanDollarBrace fuel st start acc = .ok res →
    res.2.toks = st.toks ∧ res.2.indentStack = st.indentStack := by
  induction fuel with
  | zero => intro st start acc res h; simp [scanDollarBrace] at h
  | succ fuel ih =>
      intro st start acc res h
      simp only [scanDollarBrace] at h
      split at h
      · simp at h
      · split at h
        · simp only [Except.ok.injEq] at h
          subst h
          simp [lexAdv1_toks, lexAdv1_stack]
        · have := ih _ _ _ _ h
          simpa [lexAdv1_toks, lexAdv1_stack] using this

lemma exceptBindOk {α β : Type} {x : Except Err α} {f : α → Except Err β} {b : β}
    (h : Bind.bind x f = .ok b) : ∃ a, x = .ok a ∧ f a = .ok b := by
  cases x with
  | error e => simp [Bind.bind, Except.bind] at h
  | ok a =>
      refine ⟨a, rfl, ?_⟩
      simpa [Bind.bind, Except.bind] using h

/-- Emitting one non-INDENT/DEDENT token onto a state whose token list
and stack match `st`'s preserves the invariant. -/
lemma indentInv_emit {st stMid : LexSt} (hInv : indentInv st) (k : TokKind)
    (v : String) (p : Pos) (hk1 : (k == TokKind.INDENT) = false)
    (hk2 : (k == TokKind.DEDENT) = false) (hts : stMid.toks = st.toks)
    (hss : stMid.indentStack = st.indentStack) :
    indentInv (lexEmit stMid k v p) :=
  indentInv_of_neutral hInv
    (Or.inr ⟨⟨k, v, p⟩, hk1, hk2, by
      rw [show (lexEmit stMid k v p).toks = ⟨k, v, p⟩ :: stMid.toks from rfl, hts]⟩)
    (by rw [show (lexEmit stMid k v p).indentStack = stMid.indentStack from rfl, hss])

lemma scanString_inv {st st' : LexSt} (hInv : indentInv st)
    (h : scanString st = .ok st') : indentInv st' := by
  simp only [scanString] at h
  split at h
  · obtain ⟨⟨buf, st2⟩, hb, h2⟩ := exceptBindOk h
    simp only [pure, Except.pure, Except.ok.injEq] at h2
    subst h2
    have hk := scanTripleBody_keeps _ _ _ _ _ hb
    have hts : st2.toks = st.toks := by rw [hk.1]; simp [lexAdv1_toks]
    have hss : st2.indentStack = st.indentStack := by rw [hk.2]; simp [lexAdv1_stack]
    exact indentInv_emit hInv .STRING _ _ rfl rfl hts hss
  · obtain ⟨⟨buf, st2⟩, hb, h2⟩ := exceptBindOk h
    simp only [pure, Except.pure, Except.ok.injEq] at h2
    subst h2
    have hk := scanStrBody_keeps _ _ _ _ _ hb
    have hts : st2.toks = st.toks := by rw [hk.1]; simp [lexAdv1_toks]
    have hss : st2.indentStack = st.indentStack := by rw [hk.2]; simp [lexAdv1_stack]
    exact indentInv_emit hInv .STRING _ _ rfl rfl hts hss

lemma scanScalarVar_inv {st st' : LexSt} (hInv : indentInv st)
    (h : scanScalarVar st = .ok st') : indentInv st' := by
  simp only [scanScalarVar] at h
  split at h
  · obtain ⟨⟨inner, st2⟩, hb, h2⟩ := exceptBindOk h
    simp only [pure, Except.pure, Except.ok.injEq] at h2
    subst h2
    have hk := scanDollarBrace_keeps _ _ _ _ _ hb
    have hts : st2.toks = st.toks := by
      rw [hk.1]; simp [lexAdv1_toks, lexAdvFlat]
    have hss : st2.indentStack = st.indentStack := by
      rw [hk.2]; simp [lexAdv1_stack, lexAdvFlat]
    exact indentInv_emit hInv .STRING _ _ rfl rfl hts hss
  · split at h
    · simp only [pure, Except.pure, Except.ok.injEq] at h
      subst h
      exact indentInv_emit hInv .STRING _ _ rfl rfl rfl rfl
    · simp at h
  · simp at h

lemma scanFence_inv {st st' : LexSt} (hInv : indentInv st)
    (h : scanFence st = .ok st') : indentInv st' := by
  simp only [scanFence] at h
  obtain ⟨⟨buf, st2⟩, hb, h2⟩ := exceptBindOk h
  simp only [pure, Except.pure, Except.ok.injEq] at h2
  subst h2
  have hk := scanFenceBody_keeps _ _ _ _ _ _ _ hb
  have hts : st2.toks = st.toks := by
    rw [hk.1]
    split
    · simp [lexAdvFlat]
    · split <;> simp [lexAdv1_toks, lexAdvFlat]
  have hss : st2.indentStack = st.indentStack := by
    rw [hk.2]
    split
    · simp [lexAdvFlat]
    · split <;> simp [lexAdv1_stack, lexAdvFlat]
  exact indentInv_emit hInv .FENCE _ _ rfl rfl hts hss

/-- Pushing a level and emitting INDENT preserves the invariant. -/
lemma indentInv_push {st stMid : LexSt} (hInv : indentInv st) (lvl : Nat) (p : Pos)
    (hts : stMid.toks = st.toks) (hss : stMid.indentStack = st.indentStack) :
    indentInv (lexEmit { stMid with indentStack := lvl :: stMid.indentStack }
      .INDENT "" p) := by
  obtain ⟨hbal, hne⟩ := hInv
  constructor
  · have h1 : countTok TokKind.INDENT ((⟨TokKind.INDENT, "", p⟩ : Token) :: stMid.toks) =
        countTok TokKind.INDENT stMid.toks + 1 := countTok_cons_eq (by rfl) _
    have h2 : countTok TokKind.DEDENT ((⟨TokKind.INDENT, "", p⟩ : Token) :: stMid.toks) =
        countTok TokKind.DEDENT stMid.toks := countTok_cons_ne (by rfl) _
    show countTok TokKind.INDENT ((⟨TokKind.INDENT, "", p⟩ : Token) :: stMid.toks) + 1 =
        countTok TokKind.DEDENT ((⟨TokKind.INDENT, "", p⟩ : Token) :: stMid.toks) +
          (lvl :: stMid.indentStack).length
    rw [h1, h2, hts, hss]
    simp only [List.length_cons]
    omega
  · show (lvl :: stMid.indentStack) ≠ []
    simp

lemma dedentToGo_inv : ∀ (stack : List Nat) (level : Nat) (start : Pos) (st st' : LexSt),
    stack = st.indentStack →
    countTok .INDENT st.toks + 1 = countTok .DEDENT st.toks + stack.length →
    dedentTo.go level start stack st = .ok st' → indentInv st' := by
  intro stack
  induction stack with
  | nil => intro level start st st' hs hbal h; simp [dedentTo.go] at h
  | cons top rest ih =>
      intro level start st st' hs hbal h
      simp only [dedentTo.go] at h
      split at h
      · refine ih level start _ st' ?_ ?_ h
        · rfl
        have h1 : countTok TokKind.INDENT
            ((⟨TokKind.DEDENT, "", lexPos st⟩ : Token) :: st.toks) =
            countTok TokKind.INDENT st.toks := countTok_cons_ne (by rfl) _
        have h2 : countTok TokKind.DEDENT
            ((⟨TokKind.DEDENT, "", lexPos st⟩ : Token) :: st.toks) =
            countTok TokKind.DEDENT st.toks + 1 := countTok_cons_eq (by rfl) _
        show countTok TokKind.INDENT
            ((⟨TokKind.DEDENT, "", lexPos st⟩ : Token) :: st.toks) + 1 =
            countTok TokKind.DEDENT
              ((⟨TokKind.DEDENT, "", lexPos st⟩ : Token) :: st.toks) + rest.length
        rw [h1, h2]
        simp only [List.length_cons] at hbal
        omega
      · split at h
        · simp at h
        · simp only [Except.ok.injEq] at h
          subst h
          constructor
          · rw [← hs]
            exact hbal
          · rw [← hs]
            simp

lemma handleIndent_inv {st st' : LexSt} (hInv : indentInv st)
    (h : handleIndent st = .ok st') : indentInv st' := by
  simp only [handleIndent] at h
  split at h
  · simp at h
  · split at h
    · simp only [Except.ok.injEq] at h
      subst h
      exact indentInv_of_neutral (indentInv_emit hInv .NEWLINE _ _ rfl rfl rfl rfl)
        (Or.inl (lexAdv1_toks _)) (lexAdv1_stack _)
    · split at h
      · simp at h
      · split at h
        · simp only [Except.ok.injEq] at h
          subst h
          exact indentInv_of_neutral hInv (Or.inl rfl) rfl
        · split at h
          · simp at h
          · split at h
            · simp only [Except.ok.injEq] at h
              subst h
              exact indentInv_of_neutral hInv (Or.inl rfl) rfl
            · split at h
              · simp only [Except.ok.injEq] at h
                subst h
                exact indentInv_push hInv _ _ rfl rfl
              · split at h
                · simp only [dedentTo] at h
                  refine dedentToGo_inv _ _ _ _ _ ?_ ?_ h
                  · rfl
                  · exact hInv.1
                · simp at h

lemma lexFlushGo_balance : ∀ (stack : List Nat) (st : LexSt), stack = st.indentStack →
    countTok .INDENT st.toks + 1 = countTok .DEDENT st.toks + stack.length →
    stack ≠ [] →
    countTok .INDENT (lexFlush.go stack st).toks =
      countTok .DEDENT (lexFlush.go stack st).toks := by
  intro stack
  induction stack with
  | nil => intro st hs hbal hne; exact absurd rfl hne
  | cons a tail ih =>
      intro st hs hbal hne
      cases tail with
      | nil =>
          simp only [lexFlush.go]
          have h1 : countTok TokKind.INDENT
              ((⟨TokKind.EOF, "", lexPos st⟩ : Token) :: st.toks) =
              countTok TokKind.INDENT st.toks := countTok_cons_ne (by rfl) _
          have h2 : countTok TokKind.DEDENT
              ((⟨TokKind.EOF, "", lexPos st⟩ : Token) :: st.toks) =
              countTok TokKind.DEDENT st.toks := countTok_cons_ne (by rfl) _
          show countTok TokKind.INDENT
              ((⟨TokKind.EOF, "", lexPos st⟩ : Token) :: st.toks) =
              countTok TokKind.DEDENT
                ((⟨TokKind.EOF, "", lexPos st⟩ : Token) :: st.toks)
          rw [h1, h2]
          simp only [List.length_cons, List.length_nil] at hbal
          omega
      | cons next rest =>
          simp only [lexFlush.go]
          refine ih _ rfl ?_ (by simp)
          have h1 : countTok TokKind.INDENT
              ((⟨TokKind.DEDENT, "", lexPos st⟩ : Token) :: st.toks) =
              countTok TokKind.INDENT st.toks := countTok_cons_ne (by rfl) _
          have h2 : countTok TokKind.DEDENT
              ((⟨TokKind.DEDENT, "", lexPos st⟩ : Token) :: st.toks) =
              countTok TokKind.DEDENT st.toks + 1 := countTok_cons_eq (by rfl) _
          show countTok TokKind.INDENT
              ((⟨TokKind.DEDENT, "", lexPos st⟩ : Token) :: st.toks) + 1 =
              countTok TokKind.DEDENT
                ((⟨TokKind.DEDENT, "", lexPos st⟩ : Token) :: st.toks) +
                (next :: rest).length
          rw [h1, h2]
          simp only [List.length_cons] at hbal ⊢
          omega

lemma scanIdent_kind_ne (cs : List Char) :
    ((scanIdent cs).1.kind == TokKind.INDENT) = false ∧
    ((scanIdent cs).1.kind == TokKind.DEDENT) = false := by
  simp only [scanIdent]
  constructor
  · split
    · rfl
    · split
      · rfl
      · rfl
  · split
    · rfl
    · split
      · rfl
      · rfl

lemma lexStep_inv {st st' : LexSt} (hInv : indentInv st)
    (h : lexStep st = .ok st') : indentInv st' := by
  cases hr : st.rest with
  | nil =>
      simp only [lexStep, hr] at h
      simp only [Except.ok.injEq] at h
      subst h
      exact hInv
  | cons c rest1 =>
      simp only [lexStep, hr] at h
      by_cases h1 : (c == '#') = true
      · rw [if_pos h1] at h
        simp only [Except.ok.injEq] at h
        subst h
        exact indentInv_of_neutral hInv (Or.inl rfl) rfl
      rw [if_neg h1] at h
      by_cases h2 : (c == '\t') = true
      · rw [if_pos h2] at h
        simp at h
      rw [if_neg h2] at h
      by_cases h3 : (c == ' ') = true
      · rw [if_pos h3] at h
        simp only [Except.ok.injEq] at h
        subst h
        exact indentInv_of_neutral hInv (Or.inl (lexAdv1_toks _)) (lexAdv1_stack _)
      rw [if_neg h3] at h
      by_cases h4 : (c == '\n') = true
      · rw [if_pos h4] at h
        simp only [Except.ok.injEq] at h
        subst h
        exact indentInv_of_neutral (indentInv_emit hInv .NEWLINE _ _ rfl rfl rfl rfl)
          (Or.inl (lexAdv1_toks _)) (lexAdv1_stack _)
      rw [if_neg h4] at h
      by_cases h5 : (c == '@') = true
      · rw [if_pos h5] at h
        simp only [Except.ok.injEq] at h
        subst h
        exact lexSimple_inv hInv (by rfl) (by rfl)
      rw [if_neg h5] at h
      by_cases h6 : (c == '(') = true
      · rw [if_pos h6] at h
        simp only [Except.ok.injEq] at h
        subst h
        exact lexSimple_inv hInv (by rfl) (by rfl)
      rw [if_neg h6] at h
      by_cases h7 : (c == ')') = true
      · rw [if_pos h7] at h
        simp only [Except.ok.injEq] at h
        subst h
        exact lexSimple_inv hInv (by rfl) (by rfl)
      rw [if_neg h7] at h
      by_cases h8 : (c == '\x7b') = true
      · rw [if_pos h8] at h
        simp only [Except.ok.injEq] at h
        subst h
        exact lexSimple_inv hInv (by rfl) (by rfl)
      rw [if_neg h8] at h
      by_cases h9 : (c == '\x7d') = true
      · rw [if_pos h9] at h
        simp only [Except.ok.injEq] at h
        subst h
        exact lexSimple_inv hInv (by rfl) (by rfl)
      rw [if_neg h9] at h
      by_cases h10 : (c == '[') = true
      · rw [if_pos h10] at h
        simp only [Except.ok.injEq] at h
        subst h
        exact lexSimple_inv hInv (by rfl) (by rfl)
      rw [if_neg h10] at h
      by_cases h11 : (c == ']') = true
      · rw [if_pos h11] at h
        simp only [Except.ok.injEq] at h
        subst h
        exact lexSimple_inv hInv (by rfl) (by rfl)
      rw [if_neg h11] at h
      by_cases h12 : (c == ',') = true
      · rw [if_pos h12] at h
        simp only [Except.ok.injEq] at h
        subst h
        exact lexSimple_inv hInv (by rfl) (by rfl)
      rw [if_neg h12] at h
      by_cases h13 : (c == ':') = true
      · rw [if_pos h13] at h
        simp only [Except.ok.injEq] at h
        subst h
        exact lexSimple_inv hInv (by rfl) (by rfl)
      rw [if_neg h13] at h
      by_cases h14 : (c == '&') = true
      · rw [if_pos h14] at h
        simp only [Except.ok.injEq] at h
        subst h
        exact lexSimple_inv hInv (by rfl) (by rfl)
      rw [if_neg h14] at h
      by_cases h15 : (c == '*') = true
      · rw [if_pos h15] at h
        simp only [Except.ok.injEq] at h
        subst h
        exact lexSimple_inv hInv (by rfl) (by rfl)
      rw [if_neg h15] at h
      by_cases h16 : (c == '=') = true
      · rw [if_pos h16] at h
        simp only [Except.ok.injEq] at h
        subst h
        exact lexSimple_inv hInv (by rfl) (by rfl)
      rw [if_neg h16] at h
      by_cases h17 : (c == '-') = true
      · rw [if_pos h17] at h
        by_cases hd : ((rest1.head?.map isDigitChar).getD false) = true
        · rw [if_pos hd] at h
          cases hn : scanNumber (c :: rest1) with
          | some pr =>
              obtain ⟨lexeme, n⟩ := pr
              rw [hn] at h
              simp only [Except.ok.injEq] at h
              subst h
              exact indentInv_of_neutral hInv
                (Or.inr ⟨⟨.NUMBER, lexeme, lexPos st⟩, by rfl, by rfl, rfl⟩) rfl
          | none =>
              rw [hn] at h
              simp only [Except.ok.injEq] at h
              subst h
              exact lexSimple_inv hInv (by rfl) (by rfl)
        · rw [if_neg hd] at h
          simp only [Except.ok.injEq] at h
          subst h
          exact lexSimple_inv hInv (by rfl) (by rfl)
      rw [if_neg h17] at h
      by_cases h18 : (c == '"') = true
      · rw [if_pos h18] at h
        obtain ⟨st2, hs2, h2⟩ := exceptBindOk h
        simp only [Except.ok.injEq] at h2
        subst h2
        have h3 := scanString_inv hInv hs2
        exact h3
      rw [if_neg h18] at h
      by_cases h19 : ((c :: rest1).take 3 == ['`', '`', '`']) = true
      · rw [if_pos h19] at h
        obtain ⟨st2, hs2, h2⟩ := exceptBindOk h
        simp only [Except.ok.injEq] at h2
        subst h2
        have h3 := scanFence_inv hInv hs2
        exact h3
      rw [if_neg h19] at h
      by_cases h20 : (c == '|' && rest1.head? == some '>') = true
      · rw [if_pos h20] at h
        simp only [Except.ok.injEq] at h
        subst h
        exact indentInv_of_neutral hInv
          (Or.inr ⟨⟨.PIPE, "|>", lexPos st⟩, by rfl, by rfl, rfl⟩) rfl
      rw [if_neg h20] at h
      by_cases h21 : (c == '$') = true
      · rw [if_pos h21] at h
        obtain ⟨st2, hs2, h2⟩ := exceptBindOk h
        simp only [Except.ok.injEq] at h2
        subst h2
        have h3 := scanScalarVar_inv hInv hs2
        exact h3
      rw [if_neg h21] at h
      by_cases h22 : (c == '+' || isDigitChar c) = true
      · rw [if_pos h22] at h
        cases hn : scanNumber (c :: rest1) with
        | some pr =>
            obtain ⟨lexeme, n⟩ := pr
            rw [hn] at h
            simp only [Except.ok.injEq] at h
            subst h
            exact indentInv_of_neutral hInv
              (Or.inr ⟨⟨.NUMBER, lexeme, lexPos st⟩, by rfl, by rfl, rfl⟩) rfl
        | none =>
            rw [hn] at h
            by_cases hi : (isIdentStart c) = true
            · rw [if_pos hi] at h
              cases hsi : scanIdent (c :: rest1) with
              | mk tok n =>
                  rw [hsi] at h
                  simp only [Except.ok.injEq] at h
                  subst h
                  have hk := scanIdent_kind_ne (c :: rest1)
                  rw [hsi] at hk
                  exact indentInv_of_neutral hInv
                    (Or.inr ⟨⟨tok.kind, tok.value, lexPos st⟩, hk.1, hk.2, rfl⟩) rfl
            · rw [if_neg hi] at h
              simp at h
      rw [if_neg h22] at h
      by_cases h23 : (isIdentStart c) = true
      · rw [if_pos h23] at h
        cases hsi : scanIdent (c :: rest1) with
        | mk tok n =>
            rw [hsi] at h
            simp only [Except.ok.injEq] at h
            subst h
            have hk := scanIdent_kind_ne (c :: rest1)
            rw [hsi] at hk
            exact indentInv_of_neutral hInv
              (Or.inr ⟨⟨tok.kind, tok.value, lexPos st⟩, hk.1, hk.2, rfl⟩) rfl
      rw [if_neg h23] at h
      simp at h

lemma lexLoop_inv : ∀ (fuel : Nat) (st : LexSt) (toks : List Token), indentInv st →
    lexLoop fuel st = .ok toks →
    countTok .INDENT toks = countTok .DEDENT toks := by
  intro fuel
  induction fuel with
  | zero => intro st toks hInv h; simp [lexLoop] at h
  | succ fuel ih =>
      intro st toks hInv h
      simp only [lexLoop] at h
      split at h
      · simp only [Except.ok.injEq] at h
        subst h
        rw [countTok_reverse, countTok_reverse]
        show countTok TokKind.INDENT (lexFlush.go st.indentStack st).toks =
          countTok TokKind.DEDENT (lexFlush.go st.indentStack st).toks
        exact lexFlushGo_balance _ _ rfl hInv.1 hInv.2
      · by_cases hbol : st.bol = true
        · rw [if_pos hbol] at h
          obtain ⟨st1, hb, h⟩ := exceptBindOk h
          have hInv1 : indentInv st1 := handleIndent_inv hInv hb
          split at h
          · exact ih st1 toks hInv1 h
          · obtain ⟨st2, hstep, h2⟩ := exceptBindOk h
            exact ih st2 toks (lexStep_inv hInv1 hstep) h2
        · rw [if_neg hbol] at h
          obtain ⟨st1, hb, h⟩ := exceptBindOk h
          have hInv1 : indentInv st1 := by
            simp only [Except.ok.injEq] at hb
            exact hb ▸ hInv
          split at h
          · exact ih st1 toks hInv1 h
          · obtain ⟨st2, hstep, h2⟩ := exceptBindOk h
            exact ih st2 toks (lexStep_inv hInv1 hstep) h2

/-- Spec-side (from the claim words): does the normalized source contain
a line that is non-empty (has content after its leading spaces) and
whose count of leading spaces is odd? -/
def specOddIndentLine (text : String) : Bool :=
  (splitChar '\n' (normalizeNewlines text.data)).any fun line =>
    let ind := (line.takeWhile (fun ch => ch == ' ')).length
    decide (ind % 2 = 1) && decide (ind < line.length)

/-- Tokens of the multi-line-string document. -/
def toksOddIndent : List Token :=
  [⟨.AT, "", ⟨1, 1⟩⟩, ⟨.IDENT, "a", ⟨1, 2⟩⟩, ⟨.NEWLINE, "", ⟨1, 3⟩⟩, ⟨.INDENT, "", ⟨2, 3⟩⟩,
   ⟨.IDENT, "k", ⟨2, 3⟩⟩, ⟨.COLON, "", ⟨2, 4⟩⟩, ⟨.STRING, "x\n   y", ⟨2, 6⟩⟩,
   ⟨.NEWLINE, "", ⟨3, 6⟩⟩, ⟨.DEDENT, "", ⟨4, 1⟩⟩, ⟨.EOF, "", ⟨4, 1⟩⟩]

/-- Claim C3 counterexample: the document `@a\n  k: "x\n   y"\n` has a
non-empty line (`   y"`) whose leading-space count is 3 — odd — and the
document contains no fence, yet lexing succeeds: the odd-indented line
is inside an ordinary double-quoted string that spans a newline, and
the lexer clears the beginning-of-line flag after a string token, so
`_handle_indent` never sees that line. -/
theorem indent_discipline_counterexample :
    lex "@a\n  k: \"x\n   y\"\n" = .ok toksOddIndent ∧
    specOddIndentLine "@a\n  k: \"x\n   y\"\n" = true ∧
    strHasSub "```" "@a\n  k: \"x\n   y\"\n" = false :=
  ⟨rfl, rfl, rfl⟩

/-- Claim C3 amended: the indentation checks live in `_handle_indent`,
which runs only at beginning-of-line positions the dispatch loop
reaches (outside fences and outside multi-line strings): there, a
non-blank line with an odd count of leading spaces is rejected with
`F002`, and a level increase of more than one is rejected with `F002`;
and every token list produced by a successful `lex` has exactly as many
DEDENT as INDENT tokens (the EOF flush pops the stack to bottom). -/
theorem indentation_discipline (st : LexSt) (cur : Nat) (stk : List Nat)
    (hf : st.inFence = false)
    (htab : ((st.rest.drop (st.rest.takeWhile (fun ch => ch == ' ')).length).head? ==
      some '\t') = false)
    (hnl : ((st.rest.drop (st.rest.takeWhile (fun ch => ch == ' ')).length).head? ==
      some '\n') = false) :
    ((st.rest.takeWhile (fun ch => ch == ' ')).length % 2 = 1 →
      handleIndent st = .error ⟨"F002", "Indentation must be multiples of 2 spaces",
        some (lexPos st)⟩) ∧
    ((st.rest.takeWhile (fun ch => ch == ' ')).length % 2 = 0 →
      st.indentStack = cur :: stk →
      cur + 1 < (st.rest.takeWhile (fun ch => ch == ' ')).length / 2 →
      handleIndent st = .error ⟨"F002", "Indentation increased by more than one level",
        some (lexPos st)⟩) ∧
    (∀ (text : String) (toks : List Token), lex text = .ok toks →
      countTok .INDENT toks = countTok .DEDENT toks) := by
  have htab' := htab
  have hnl' := hnl
  simp at htab' hnl'
  refine ⟨?_, ?_, ?_⟩
  · intro hodd
    simp only [handleIndent, lexAdvFlat]
    simp [htab', hnl', hf, hodd]
  · intro heven hstack hjump
    have hne1 : ¬ ((st.rest.takeWhile (fun ch => ch == ' ')).length / 2 = cur) := by
      omega
    have hne2 : ¬ ((st.rest.takeWhile (fun ch => ch == ' ')).length / 2 = cur + 1) := by
      omega
    have hnlt : ¬ ((st.rest.takeWhile (fun ch => ch == ' ')).length / 2 < cur) := by
      omega
    simp only [handleIndent, lexAdvFlat]
    simp [htab', hnl', hf, heven, hstack, hne1, hne2, hnlt]
  · intro text toks h
    refine lexLoop_inv _ _ _ ⟨?_, ?_⟩ h
    · rfl
    · simp [lexInit]

/-- Tokens of the balance-witness document. -/
def toksBalanceDoc : List Token :=
  [⟨.AT, "", ⟨1, 1⟩⟩, ⟨.IDENT, "a", ⟨1, 2⟩⟩, ⟨.NEWLINE, "", ⟨1, 3⟩⟩, ⟨.INDENT, "", ⟨2, 3⟩⟩,
   ⟨.IDENT, "b", ⟨2, 3⟩⟩, ⟨.COLON, "", ⟨2, 4⟩⟩, ⟨.NUMBER, "1", ⟨2, 6⟩⟩,
   ⟨.NEWLINE, "", ⟨2, 7⟩⟩, ⟨.DEDENT, "", ⟨3, 1⟩⟩, ⟨.EOF, "", ⟨3, 1⟩⟩]

/-- Claim C3 amended witness: a 3-space line is rejected, a 2-level jump
is rejected, and a lexed document balances INDENT against DEDENT. -/
theorem indentation_discipline_witness :
    handleIndent ⟨[' ', ' ', ' ', 'y'], 3, 1, [], [0], true, false⟩ =
      .error ⟨"F002", "Indentation must be multiples of 2 spaces", some ⟨3, 1⟩⟩ ∧
    handleIndent ⟨[' ', ' ', ' ', ' ', 'y'], 5, 1, [], [0], true, false⟩ =
      .error ⟨"F002", "Indentation increased by more than one level", some ⟨5, 1⟩⟩ ∧
    countTok .INDENT toksBalanceDoc = countTok .DEDENT toksBalanceDoc := by
  refine ⟨?_, ?_, ?_⟩
  · exact (indentation_discipline ⟨[' ', ' ', ' ', 'y'], 3, 1, [], [0], true, false⟩
      0 [] rfl rfl rfl).1 rfl
  · exact (indentation_discipline ⟨[' ', ' ', ' ', ' ', 'y'], 5, 1, [], [0], true, false⟩
      0 [] rfl rfl rfl).2.1 rfl rfl (by decide)
  · exact (indentation_discipline ⟨[], 1, 1, [], [0], true, false⟩ 0 [] rfl rfl rfl).2.2
      "@a\n  b: 1\n" toksBalanceDoc rfl

end FacetSpec
